import Mathlib

/-!
Verification of the Lost-in-the-Mix code-switching pipeline scripts.

Python strings are modelled as `List Char`, the external LLM call
(`invoke_claude` from the `claude` module, not part of this repository)
as an oracle `Str → Option Str` (`none` models a raised exception), and
pandas dataframes as a list of association-list rows together with a
column list.  Each script's `main` is embedded as a function from its
inputs to the produced dataframe (`none` when an exception propagates
out) together with the trace of externally visible events: the prompts
sent to the LLM, in order, and the final CSV write.
-/

/-- Python `str` is modelled as a list of characters. -/
abbrev Str := List Char

/-- Helper for `pySplit`: scans the string; `acc` holds the (reversed)
characters of the word currently being read. -/
def pySplitGo : Str → Str → List Str
  | [], acc => if acc = [] then [] else [acc.reverse]
  | c :: cs, acc =>
    if c.isWhitespace then
      (if acc = [] then [] else [acc.reverse]) ++ pySplitGo cs []
    else pySplitGo cs (c :: acc)

/-- Python `text.split()` with no argument: split on runs of whitespace,
dropping empty tokens. -/
def pySplit (s : Str) : List Str := pySplitGo s []

/-- Python `sep.join(parts)`. -/
def pyJoinSep (sep : Str) : List Str → Str
  | [] => []
  | [w] => w
  | w :: ws => w ++ sep ++ pyJoinSep sep ws

/-- Python `s.strip()`: remove leading and trailing whitespace. -/
def pyStrip (s : Str) : Str :=
  ((s.dropWhile Char.isWhitespace).reverse.dropWhile Char.isWhitespace).reverse

/-- The placeholder marker used by every script. -/
def placeholderWord : Str := "#######".data

/-- From `Main Experiments/Non-linguistically motivated code-switching/2.code_switching.py`,
`insert_placeholders_random` after the `random.sample` call: `indices` is
the sample drawn from `range(len(words))`; each sampled position of the
word list is overwritten with `'#######'` and the words are re-joined
with single spaces.  The `rate` parameter is fixed at its only call-site
value `0.2`; `int(len(words) * 0.2)` is `len(words) / 5` in integer
arithmetic. -/
def insert_placeholders_random (indices : List Nat) (text : Str) : Str :=
  let words := pySplit text
  pyJoinSep [' '] (indices.foldl (fun ws i => ws.set i placeholderWord) words)

/-- `insert_placeholders_random` including the `random.sample` call:
`choose n k` models the sampler's pick of `k` indices from `range(n)`.
`random.sample` raises `ValueError` (modelled by `none`) exactly when the
requested count exceeds the population size. -/
def insert_placeholders_randomE (choose : Nat → Nat → List Nat) (text : Str) :
    Option Str :=
  let words := pySplit text
  let count := max 1 (words.length / 5)
  if count ≤ words.length then
    some (insert_placeholders_random (choose words.length count) text)
  else none

/-- Externally visible events of a script run: a prompt sent to the
text-generation service, or the final CSV write. -/
inductive Event where
  | call (prompt : Str)
  | write
deriving DecidableEq

/-- The external text-generation service; `none` models a raised
exception. -/
abbrev Oracle := Str → Option Str

/-- An oracle that never raises, replying `f p` to prompt `p`. -/
def totalOracle (f : Str → Str) : Oracle := fun p => some (f p)

/-- `invoke_claude` from the external `claude` module: one service call,
recorded in the event trace. -/
def invoke_claude (oracle : Oracle) (prompt : Str) : Option Str × List Event :=
  (oracle prompt, [Event.call prompt])

/-- A dataframe row: an association list from column names to values. -/
abbrev Row (α : Type) := List (String × α)

/-- A pandas dataframe: column names plus rows. -/
structure DataFrame (α : Type) where
  cols : List String
  rows : List (Row α)
deriving DecidableEq

/-- `row[c]` for a column known to be present; absent columns are read as
the default (scripts only read columns their input is assumed to have). -/
def rowGetS (r : Row Str) (c : String) : Str := (r.lookup c).getD []

/-- Assigning `row[c] = v`: overwrite in place when the column exists,
append it otherwise (pandas keeps column positions on overwrite). -/
def rowSet (r : Row α) (c : String) (v : α) : Row α :=
  if (r.lookup c).isSome then r.map (fun p => if p.1 = c then (c, v) else p)
  else r ++ [(c, v)]

/-- `df[c] = vals`: column assignment of a computed series. -/
def dfSetCol (df : DataFrame α) (c : String) (vals : List α) : DataFrame α :=
  { cols := if c ∈ df.cols then df.cols else df.cols ++ [c],
    rows := df.rows.zipWith (fun r v => rowSet r c v) vals }

/-- The values of one column, row by row (`none` for a missing entry). -/
def colValues (df : DataFrame α) (c : String) : List (Option α) :=
  df.rows.map (fun r => r.lookup c)

/-- `df.drop_duplicates(subset=key)`: keep each row whose `key`-value has
not been seen in an earlier row; `seen` accumulates the values met so
far. -/
def dropDupsBy [DecidableEq α] (key : String) :
    List (Row α) → List (Option α) → List (Row α)
  | [], _ => []
  | r :: rs, seen =>
    if (r.lookup key) ∈ seen then dropDupsBy key rs seen
    else r :: dropDupsBy key rs (r.lookup key :: seen)

/-- `if args.sample_size: df = df.drop_duplicates(subset=key).head(n)` —
`None` and `0` are both falsy in Python, so they keep all rows. -/
def sampleDedup [DecidableEq α] (sample_size : Option Nat) (key : String)
    (df : DataFrame α) : DataFrame α :=
  match sample_size with
  | some n => if n = 0 then df else { df with rows := (dropDupsBy key df.rows []).take n }
  | none => df

/-- `if args.sample_size: df = df.head(n)` (the random script samples
without deduplication). -/
def sampleHead (sample_size : Option Nat) (df : DataFrame α) : DataFrame α :=
  match sample_size with
  | some n => if n = 0 then df else { df with rows := df.rows.take n }
  | none => df

/-- Sequential `progress_apply` over rows of a possibly-raising
per-row computation: stop at the first exception, concatenating the
event traces of the rows processed so far. -/
def mapLogE (f : α → Option β × List Event) :
    List α → Option (List β) × List Event
  | [] => (some [], [])
  | a :: as =>
    match f a with
    | (none, ev) => (none, ev)
    | (some b, ev) =>
      match mapLogE f as with
      | (none, ev2) => (none, ev ++ ev2)
      | (some bs, ev2) => (some (b :: bs), ev ++ ev2)

/-- Sequencing of pipeline stages: if the previous stage raised, the
exception propagates with the events so far; otherwise the continuation
runs and its events are appended. -/
def withStage (res : Option (List β) × List Event)
    (k : List β → Option γ × List Event) : Option γ × List Event :=
  match res with
  | (none, ev) => (none, ev)
  | (some bs, ev) => ((k bs).1, ev ++ (k bs).2)

namespace Ling

/-- The masking prompt of
`Main Experiments/Linguistically motivated CSW/noun-token/2.code_switching.py`
(`get_switching_points`), with `{text}` interpolated. -/
def maskPrompt (text : Str) : Str :=
  "\nYou are an expert linguist and code‑switching analyst. Based on the Equivalence Constraint Theory and the Matrix Language Frame model, identify nouns in the input English sentence that would serve as appropriate code‑switching points.\n\n– Input variable: text (a single English sentence)  \n– Task: Find every noun (as a free content morpheme) that can be switched under the theories above.  \n– Transformation: Replace each identified noun in the sentence with \"#######\".  \n– Output: Return only the transformed sentence with nouns replaced by \"#######\".\n- The substituted words blend seamlessly into the text, following natural bilingual speech patterns.\n- Adjust the target language words as needed (e.g., inflection, gender, number) so that the text remains syntactically correct.\n- Ensure that nouns in common expressions are not code-switched.\n- Don\x27t return any summary or introduction, just the processed text\n\n[English text]\n".data
    ++ text ++ "\n".data

/-- The filling prompt of the same script (`code_switch_text`). -/
def fillPrompt (target_language placeholder_text target_text : Str) : Str :=
  "\nYou will be given a pair of parallel texts in English and ".data ++ target_language
    ++ ".\n\nYour goal is to produce a code-switched version of the English text by replacing each of the hashtag-sequences (#######) in the English text with their ".data
    ++ target_language ++ " counterparts from the ".data ++ target_language
    ++ " text, ensuring that:\n- The substituted words blend seamlessly into the text, following natural bilingual speech patterns.\n- The text should be grounded with the principles of the Equivalence Constraint Theory and the Matrix Language Frame model.\n- Adjust the target language words as needed (e.g., inflection, gender, number) so that the text remains syntactically correct.\n- The original meaning and flow of the text are maintained.\n- All the hashtag-sequences (#######) have to be replaced with text from the ".data
    ++ target_language ++ " text.\n- Use only the words from the ".data ++ target_language
    ++ " text.\n- Return only the code-switched text, without any additions or explanations.\n\n[English text with placeholders]\n".data
    ++ placeholder_text ++ "\n\n[".data ++ target_language ++ " text]\n".data
    ++ target_text ++ "\n\n[Code-switched English and ".data ++ target_language ++ "]\n".data

/-- `get_switching_points`: one LLM call, stripped response. -/
def get_switching_points (oracle : Oracle) (text : Str) :
    Option Str × List Event :=
  let prompt := maskPrompt text
  let r := invoke_claude oracle prompt
  (r.1.map pyStrip, r.2)

/-- `code_switch_text`: one LLM call, stripped response. -/
def code_switch_text (oracle : Oracle)
    (placeholder_text target_text target_language : Str) :
    Option Str × List Event :=
  let prompt := fillPrompt target_language placeholder_text target_text
  let r := invoke_claude oracle prompt
  (r.1.map pyStrip, r.2)

/-- `main` of the linguistically motivated script: optional
dedup-and-head sampling on the source column, stage 1 over all rows,
stage 2 over all rows, then the CSV write. -/
def main (oracle : Oracle) (source_column target_column : String)
    (target_language : Str) (csw_column_name : String)
    (sample_size : Option Nat) (df : DataFrame Str) :
    Option (DataFrame Str) × List Event :=
  let df0 := sampleDedup sample_size source_column df
  withStage (mapLogE (fun r => get_switching_points oracle (rowGetS r source_column)) df0.rows)
    (fun phs =>
      let df1 := dfSetCol df0 "placeholder_text" phs
      withStage (mapLogE (fun r => code_switch_text oracle (rowGetS r "placeholder_text")
          (rowGetS r target_column) target_language) df1.rows)
        (fun css => (some (dfSetCol df1 csw_column_name css), [Event.write])))

end Ling

namespace Reverse

/-- The masking prompt of
`Ablations/English as an embedded language/noun-token/2.code_switching.py`
(`mask_target_points`). -/
def maskPrompt (target_language text : Str) : Str :=
  "\nYou are an expert linguist and code‑switching analyst. Based on the Equivalence Constraint Theory and the Matrix Language Frame model, identify nouns in the input ".data
    ++ target_language
    ++ " sentence that would serve as appropriate code‑switching points.\n\n– Input variable: text (a single ".data
    ++ target_language
    ++ " sentence)\n– Task: Find every noun (as a free content morpheme) that can be switched under the theories above.\n– Transformation: Replace each identified noun in the sentence with \"#######\".\n– Output: Return only the transformed sentence with nouns replaced by \"#######\".\n- The substituted words blend seamlessly into the text, following natural bilingual speech patterns.\n- Adjust the English words as needed so that the text remains syntactically correct when inserted later.\n- Ensure that nouns in common expressions are not code-switched.\n- Don\x27t return any summary or introduction, just the processed text\n\n[".data
    ++ target_language ++ " text]\n".data ++ text ++ "\n".data

/-- The filling prompt of the same script (`insert_english_words`). -/
def fillPrompt (target_language placeholder_text english_text : Str) : Str :=
  "\nYou will be given parallel texts in ".data ++ target_language
    ++ " and English.\n\nYour goal is to produce a reverse code-switched version of the ".data
    ++ target_language
    ++ " text by replacing each of the hashtag-sequences (#######) in the ".data
    ++ target_language
    ++ " placeholder text with their English counterparts from the English text, ensuring that:\n- The substituted English words fit naturally into the ".data
    ++ target_language
    ++ " sentence structure.\n- The text should be grounded with the principles of the Equivalence Constraint Theory and the Matrix Language Frame model.\n- Inflect English words if needed to maintain grammatical correctness.\n- The original meaning and flow of the ".data
    ++ target_language
    ++ " text are preserved.\n- All the hashtag-sequences (#######) have to be replaced with text from the English text.\n- Use only the words from the English text.\n- Return only the final mixed sentence, without any additions or explanations.\n\n[".data
    ++ target_language ++ " text with placeholders]\n".data ++ placeholder_text
    ++ "\n\n[English text]\n".data ++ english_text
    ++ "\n\n[Reverse code-switched ".data ++ target_language ++ " and English]\n".data

/-- `mask_target_points`: one LLM call, stripped response. -/
def mask_target_points (oracle : Oracle) (text target_language : Str) :
    Option Str × List Event :=
  let prompt := maskPrompt target_language text
  let r := invoke_claude oracle prompt
  (r.1.map pyStrip, r.2)

/-- `insert_english_words`: one LLM call, stripped response. -/
def insert_english_words (oracle : Oracle)
    (placeholder_text english_text target_language : Str) :
    Option Str × List Event :=
  let prompt := fillPrompt target_language placeholder_text english_text
  let r := invoke_claude oracle prompt
  (r.1.map pyStrip, r.2)

/-- `main` of the reverse script: sampling dedups on the target column,
stage 1 masks the target text into `masked_target`, stage 2 inserts
English words, then the CSV write. -/
def main (oracle : Oracle) (source_column target_column : String)
    (target_language : Str) (csw_column_name : String)
    (sample_size : Option Nat) (df : DataFrame Str) :
    Option (DataFrame Str) × List Event :=
  let df0 := sampleDedup sample_size target_column df
  withStage (mapLogE (fun r => mask_target_points oracle (rowGetS r target_column)
      target_language) df0.rows)
    (fun phs =>
      let df1 := dfSetCol df0 "masked_target" phs
      withStage (mapLogE (fun r => insert_english_words oracle (rowGetS r "masked_target")
          (rowGetS r source_column) target_language) df1.rows)
        (fun css => (some (dfSetCol df1 csw_column_name css), [Event.write])))

end Reverse

namespace Rnd

/-- The filling prompt of
`Main Experiments/Non-linguistically motivated code-switching/2.code_switching.py`
(`code_switch_text`). -/
def fillPrompt (target_language placeholder_text target_text : Str) : Str :=
  "\nYou will be given an English sentence with placeholders (#######) and its parallel sentence in ".data
    ++ target_language
    ++ ".\nReplace each placeholder with the corresponding segment from the ".data
    ++ target_language
    ++ " text, ensuring:\n- The inserted text matches the target-language phrasing (inflections, gender, number).\n- The final sentence reads naturally as mixed English and ".data
    ++ target_language
    ++ ".\n- Preserve the original sentence order.\nReturn only the filled sentence, no extra comments.\n\n[English with placeholders]\n".data
    ++ placeholder_text ++ "\n\n[".data ++ target_language ++ " parallel text]\n".data
    ++ target_text ++ "\n\n[Mixed code-switched result]\n".data

/-- `code_switch_text` of the random script: one LLM call, stripped
response. -/
def code_switch_text (oracle : Oracle)
    (placeholder_text target_text target_language : Str) :
    Option Str × List Event :=
  let prompt := fillPrompt target_language placeholder_text target_text
  let r := invoke_claude oracle prompt
  (r.1.map pyStrip, r.2)

/-- `main` of the random script: head-only sampling, stage 1 inserts
random placeholders locally (no LLM call), stage 2 fills them via the
LLM, then the CSV write. -/
def main (oracle : Oracle) (choose : Nat → Nat → List Nat)
    (source_column target_column : String) (target_language : Str)
    (csw_column_name : String) (sample_size : Option Nat)
    (df : DataFrame Str) : Option (DataFrame Str) × List Event :=
  let df0 := sampleHead sample_size df
  withStage (mapLogE (fun r =>
      (insert_placeholders_randomE choose (rowGetS r source_column), [])) df0.rows)
    (fun phs =>
      let df1 := dfSetCol df0 "placeholder_text" phs
      withStage (mapLogE (fun r => code_switch_text oracle (rowGetS r "placeholder_text")
          (rowGetS r target_column) target_language) df1.rows)
        (fun css => (some (dfSetCol df1 csw_column_name css), [Event.write])))

end Rnd

namespace Multi

/-- The masking prompt of
`Ablations/When Code-Switching Goes Extreme /noun-token/2.code_switching.py`
(`get_switching_points`). -/
def maskPrompt (text : Str) : Str :=
  "\nYou are an expert linguist and code-switching analyst. Based on the Equivalence Constraint Theory, identify nouns in the input English sentence that would serve as appropriate code-switching points.\n\n– Input variable: text (a single English sentence)\n– Task: Find every noun (as a free content morpheme) that can be switched under the theories above.\n– Transformation: Replace each identified noun in the sentence with \"#######\".\n– Output: Return only the transformed sentence with nouns replaced by \"#######\".\n- Do not include any summary or extra commentary.\n\n[English text]\n".data
    ++ text ++ "\n".data

/-- The `parallel_section` of `code_switch_multi`:
`"\n".join(f"[{lang} text]\n{text}" for lang, text in zip(languages, target_texts))`. -/
def parallelSection (languages target_texts : List Str) : Str :=
  pyJoinSep "\n".data
    ((languages.zip target_texts).map
      (fun p => "[".data ++ p.1 ++ " text]\n".data ++ p.2))

/-- The filling prompt of the same script (`code_switch_multi`). -/
def fillPrompt (placeholder_text : Str) (target_texts languages : List Str) : Str :=
  "\nYou are a code-switching specialist. Given an English sentence with placeholder markers (#######) and parallel sentences in multiple target languages, produce a single mixed-language code-switched English sentence by replacing each placeholder with the appropriate word or phrase from one of the target-language sentences.\n\nGuidelines:\n- Replace each ####### with text from exactly one of the provided target-language sentences.\n- The text should be grounded with the principles of the Equivalence Constraint Theory and the Matrix Language Frame model.\n- Distribute replacements as evenly as possible across the set of languages; do not use any language more often than the others.\n- Maintain the original meaning and grammatical flow.\n- Use the exact form (including inflections) from the parallel text.\n- Return only the final code-switched sentence without any additional commentary.\n\n[English text with placeholders]\n".data
    ++ placeholder_text ++ "\n\n".data ++ parallelSection languages target_texts
    ++ "\n\n[Mixed-language code-switched sentence]\n".data

/-- `get_switching_points` of the multi-language script: one LLM call,
stripped response. -/
def get_switching_points (oracle : Oracle) (text : Str) :
    Option Str × List Event :=
  let prompt := maskPrompt text
  let r := invoke_claude oracle prompt
  (r.1.map pyStrip, r.2)

/-- `code_switch_multi`: one LLM call, stripped response. -/
def code_switch_multi (oracle : Oracle) (placeholder_text : Str)
    (target_texts languages : List Str) : Option Str × List Event :=
  let prompt := fillPrompt placeholder_text target_texts languages
  let r := invoke_claude oracle prompt
  (r.1.map pyStrip, r.2)

/-- Stage 2 plus save of the multi-language script, shared by both
branches of the placeholder-column check. -/
def stage2 (oracle : Oracle) (target_columns : List String)
    (target_languages : List Str) (csw_column_name : String)
    (df1 : DataFrame Str) : Option (DataFrame Str) × List Event :=
  withStage (mapLogE (fun r => code_switch_multi oracle (rowGetS r "placeholder_text")
      (target_columns.map (fun c => rowGetS r c)) target_languages) df1.rows)
    (fun css => (some (dfSetCol df1 csw_column_name css), [Event.write]))

/-- `main` of the multi-language script: raises when the column and
language lists disagree in length, dedup-and-head sampling on the source
column, stage 1 only when no `placeholder_text` column pre-exists, stage
2 over all rows, then the CSV write. -/
def main (oracle : Oracle) (source_column : String)
    (target_columns : List String) (target_languages : List Str)
    (csw_column_name : String) (sample_size : Option Nat)
    (df : DataFrame Str) : Option (DataFrame Str) × List Event :=
  if target_columns.length ≠ target_languages.length then (none, [])
  else
    let df0 := sampleDedup sample_size source_column df
    if "placeholder_text" ∈ df0.cols then
      stage2 oracle target_columns target_languages csw_column_name df0
    else
      withStage (mapLogE (fun r =>
          get_switching_points oracle (rowGetS r source_column)) df0.rows)
        (fun phs => stage2 oracle target_columns target_languages csw_column_name
          (dfSetCol df0 "placeholder_text" phs))

end Multi

/-!  Dataset preparation:
`Ablations/When Code-Switching Goes Extreme /noun-token/1.prepare_datasets.py`. -/

/-- One record of a Belebele test split; all fields are read as text. -/
structure BRec where
  flores_passage : Str
  question : Str
  mc_answer1 : Str
  mc_answer2 : Str
  mc_answer3 : Str
  mc_answer4 : Str
  correct_answer_num : Str
  link : Str
deriving DecidableEq

/-- Lexicographic comparison of strings by code point, the order pandas
uses to sort a text column ascending. -/
def strLe : Str → Str → Bool
  | [], _ => true
  | x :: xs, y :: ys =>
    if x.toNat < y.toNat then true
    else if y.toNat < x.toNat then false
    else strLe xs ys
  | _ :: _, [] => false

/-- The `sort_values(by='link')` order on records. -/
def linkLe (a b : BRec) : Prop := strLe a.link b.link = true

instance : DecidableRel linkLe := fun a b =>
  inferInstanceAs (Decidable (strLe a.link b.link = true))

/-- `df.sort_values(by='link').reset_index(drop=True)`. -/
def sortByLink (recs : List BRec) : List BRec := List.insertionSort linkLe recs

/-- `subset.split('_')[0]`: the language code before the underscore. -/
def belePfx (subset : String) : String :=
  String.mk (subset.data.takeWhile (fun c => !(c == '_')))

/-- The per-subset frame for a non-English Belebele subset: sort by
`link`, keep `flores_passage`/`question` renamed with the language
code. -/
def beleFrame (subset : String) (recs : List BRec) : DataFrame Str :=
  let p := belePfx subset
  { cols := [p ++ "_flores_passage", p ++ "_question"],
    rows := (sortByLink recs).map (fun r =>
      [(p ++ "_flores_passage", r.flores_passage), (p ++ "_question", r.question)]) }

/-- The per-subset frame for the English Belebele subset: additionally
keeps the four answer options and the correct answer number. -/
def beleFrameEng (subset : String) (recs : List BRec) : DataFrame Str :=
  let p := belePfx subset
  { cols := ["mc_answer1", "mc_answer2", "mc_answer3", "mc_answer4",
      "correct_answer_num", p ++ "_flores_passage", p ++ "_question"],
    rows := (sortByLink recs).map (fun r =>
      [("mc_answer1", r.mc_answer1), ("mc_answer2", r.mc_answer2),
       ("mc_answer3", r.mc_answer3), ("mc_answer4", r.mc_answer4),
       ("correct_answer_num", r.correct_answer_num),
       (p ++ "_flores_passage", r.flores_passage), (p ++ "_question", r.question)]) }

/-- The empty dataframe the combination loop starts from. -/
def emptyDF : DataFrame α := ⟨[], []⟩

/-- `pd.concat([d1, d2], axis=1)` on freshly reset integer indices: the
row set is the union of the indices; a frame shorter than the other
contributes nothing at the missing indices (pandas would fill NaN). -/
def concat2 (d1 d2 : DataFrame α) : DataFrame α :=
  { cols := d1.cols ++ d2.cols,
    rows := (List.range (max d1.rows.length d2.rows.length)).map
      (fun i => d1.rows.getD i [] ++ d2.rows.getD i []) }

/-- The Belebele combination loop over the five subsets, in source
order, starting from an empty frame. -/
def belebele_combined (eng fra deu arb zho : List BRec) : DataFrame Str :=
  concat2 (concat2 (concat2 (concat2 (concat2 emptyDF
    (beleFrameEng "eng_Latn" eng))
    (beleFrame "fra_Latn" fra))
    (beleFrame "deu_Latn" deu))
    (beleFrame "arb_Arab" arb))
    (beleFrame "zho_Hans" zho)

/-- A parsed XNLI field value (the result of `ast.literal_eval` on the
stored representation): a Python object built from strings, lists,
dictionaries with string keys, and `None`. -/
inductive PyObj where
  | str (s : Str)
  | list (xs : List PyObj)
  | dict (entries : List (Str × PyObj))
  | noneV

/-- All elements of a Python list, provided they are strings (the
`language` entries of an XNLI hypothesis field; the model restricts
dictionary keys to strings). -/
def strKeys : List PyObj → Option (List Str)
  | [] => some []
  | .str s :: rest => (strKeys rest).map (fun ks => s :: ks)
  | _ :: _ => none

/-- `dict` assignment: overwrite an existing key in place, append a new
one (Python dicts keep insertion order, re-assignment keeps position). -/
def dictInsert (es : List (Str × PyObj)) (k : Str) (v : PyObj) :
    List (Str × PyObj) :=
  if (es.lookup k).isSome then es.map (fun p => if p.1 = k then (k, v) else p)
  else es ++ [(k, v)]

/-- `dict(pairs)`: build a dictionary left to right, later duplicates
overwriting earlier ones. -/
def dictFromPairs (ps : List (Str × PyObj)) : List (Str × PyObj) :=
  ps.foldl (fun es p => dictInsert es p.1 p.2) []

/-- `process_translation` from the dataset-preparation script: a
dictionary with `language` and `translation` keys is turned into
`dict(zip(languages, translations))`; anything else is returned
unchanged.  `zip` over a non-list raises `TypeError` (modelled by
`Except.error`). -/
def process_translation (d : PyObj) : Except Str PyObj :=
  match d with
  | .dict es =>
    match es.lookup "language".data, es.lookup "translation".data with
    | some langs, some transls =>
      match langs, transls with
      | .list ls, .list ts =>
        match strKeys ls with
        | some ks => .ok (.dict (dictFromPairs (ks.zip ts)))
        | none => .error "TypeError".data
      | _, _ => .error "TypeError".data
    | _, _ => .ok d
  | _ => .ok d

/-- The per-row extraction lambda
`lambda d: d.get(lang, None) if isinstance(d, dict) else None`:
total — `dict.get` with a default never raises, and non-dictionaries are
mapped to `None` by the `isinstance` guard. -/
def xnli_extract (lang : Str) (d : PyObj) : PyObj :=
  match d with
  | .dict es => (es.lookup lang).getD .noneV
  | _ => .noneV

/-- The script's `language_map`, in iteration order. -/
def language_map : List (Str × String) :=
  [("en".data, "eng"), ("fr".data, "fra"), ("de".data, "deu"),
   ("ar".data, "arb"), ("zh".data, "zho")]

/-- `row[c]` for an XNLI row; absent columns read as `None`. -/
def rowGetObj (r : Row PyObj) (c : String) : PyObj := (r.lookup c).getD .noneV

/-- `xnli['hypothesis'] = xnli['hypothesis'].apply(process_translation)`:
the whole series is computed first (an exception in any row propagates),
then assigned. -/
def xnli_process_hypothesis (df : DataFrame PyObj) :
    Except Str (DataFrame PyObj) := do
  let vals ← df.rows.mapM (fun r => process_translation (rowGetObj r "hypothesis"))
  pure (dfSetCol df "hypothesis" vals)

/-- One iteration of the extraction loop: add the `{prefix}_premise`
and `{prefix}_hypothesis` columns for one `(lang, prefix)` pair. -/
def xnli_addLangStep (acc : DataFrame PyObj) (lp : Str × String) : DataFrame PyObj :=
  let acc1 := dfSetCol acc (lp.2 ++ "_premise")
    (acc.rows.map (fun r => xnli_extract lp.1 (rowGetObj r "premise")))
  dfSetCol acc1 (lp.2 ++ "_hypothesis")
    (acc1.rows.map (fun r => xnli_extract lp.1 (rowGetObj r "hypothesis")))

/-- The extraction loop over `language_map`, adding the
`{prefix}_premise` and `{prefix}_hypothesis` columns for each language. -/
def xnli_addLangCols (df : DataFrame PyObj) : DataFrame PyObj :=
  language_map.foldl xnli_addLangStep df

/-- A one-row XNLI frame used to instantiate the extraction claim. -/
def wXDF : DataFrame PyObj :=
  ⟨["premise", "hypothesis"],
   [[("premise", PyObj.dict [("fr".data, PyObj.str ['P'])]),
     ("hypothesis", PyObj.noneV)]]⟩

/-- Whether an event is a service call. -/
def Event.isCall : Event → Bool
  | .call _ => true
  | .write => false

/-- The common shape of a one-argument LLM stage: build the prompt from
a template, call the service once, strip the reply. -/
def llmStage1 (template : Str → Str) (oracle : Oracle) (t : Str) :
    Option Str × List Event :=
  ((oracle (template t)).map pyStrip, [Event.call (template t)])

/-- The common shape of a two-argument LLM stage. -/
def llmStage2 (template : Str → Str → Str) (oracle : Oracle) (a b : Str) :
    Option Str × List Event :=
  ((oracle (template a b)).map pyStrip, [Event.call (template a b)])

/-- The common shape of an LLM stage taking a text and a list of
parallel texts. -/
def llmStageL (template : Str → List Str → Str) (oracle : Oracle)
    (a : Str) (bs : List Str) : Option Str × List Event :=
  ((oracle (template a bs)).map pyStrip, [Event.call (template a bs)])

/-- A fixed service reply used to instantiate run-level statements. -/
def wOracle : Str → Str := fun _ => ['r']

/-- A fixed sampler used to instantiate run-level statements. -/
def wChoose : Nat → Nat → List Nat := fun _ k => List.range k

/-- A one-row frame with `src` and `tgt` columns used to instantiate
run-level statements. -/
def wDF : DataFrame Str :=
  ⟨["src", "tgt"], [[("src", ['a']), ("tgt", ['b'])]]⟩

/-- A one-row frame that already has a `placeholder_text` column. -/
def wDFph : DataFrame Str :=
  ⟨["src", "tgt", "placeholder_text"],
   [[("src", ['a']), ("tgt", ['b']), ("placeholder_text", ['p'])]]⟩

/-- A fixed Belebele record used to instantiate the alignment claim. -/
def wB6 : BRec :=
  ⟨['p'], ['q'], ['1'], ['2'], ['3'], ['4'], ['1'], ['l']⟩

/-! ### Lemmas about `pySplit` and `pyJoinSep` -/

theorem pySplitGo_mid (s : Str) : ∀ w : Str, w ≠ [] →
    pySplitGo s w =
      (w.reverse ++ s.takeWhile (fun d => !d.isWhitespace)) ::
        pySplit (s.dropWhile (fun d => !d.isWhitespace)) := by
  induction s with
  | nil =>
    intro w hw
    simp [pySplitGo, pySplit, hw]
  | cons c cs ih =>
    intro w hw
    by_cases hc : c.isWhitespace
    · have hnot : (fun d => !d.isWhitespace) c = false := by simp [hc]
      simp only [pySplitGo, hc, if_true, hw, if_false,
        List.takeWhile_cons, List.dropWhile_cons, hnot]
      simp [pySplit, pySplitGo, hc]
    · have hnot : (fun d => !d.isWhitespace) c = true := by simp [hc]
      simp only [pySplitGo, hc, if_false, List.takeWhile_cons,
        List.dropWhile_cons, hnot, if_true]
      rw [ih (c :: w) (by simp)]
      simp

theorem pySplit_nil : pySplit [] = [] := rfl

theorem pySplit_cons_ws (c : Char) (cs : Str) (hc : c.isWhitespace) :
    pySplit (c :: cs) = pySplit cs := by
  simp [pySplit, pySplitGo, hc]

theorem pySplit_cons_word (c : Char) (cs : Str) (hc : ¬ c.isWhitespace) :
    pySplit (c :: cs) =
      (c :: cs.takeWhile (fun d => !d.isWhitespace)) ::
        pySplit (cs.dropWhile (fun d => !d.isWhitespace)) := by
  simp only [pySplit, pySplitGo, hc, if_false]
  rw [pySplitGo_mid cs [c] (by simp)]
  rfl

/-- Every word produced by `pySplit` is nonempty and free of whitespace. -/
theorem pySplit_words_ok (s : Str) :
    ∀ w ∈ pySplit s, w ≠ [] ∧ ∀ c ∈ w, c.isWhitespace = false := by
  have main : ∀ s acc : Str, (∀ c ∈ acc, c.isWhitespace = false) →
      ∀ w ∈ pySplitGo s acc, w ≠ [] ∧ ∀ c ∈ w, c.isWhitespace = false := by
    intro s
    induction s with
    | nil =>
      intro acc hacc w hw
      by_cases h : acc = [] <;> simp [pySplitGo, h] at hw
      subst hw
      constructor
      · simp [h]
      · intro c hc
        exact hacc c (List.mem_reverse.mp hc)
    | cons c cs ih =>
      intro acc hacc w hw
      by_cases hc : c.isWhitespace
      · simp only [pySplitGo, hc, if_true] at hw
        rcases List.mem_append.mp hw with h | h
        · by_cases h0 : acc = [] <;> simp [h0] at h
          subst h
          refine ⟨by simp [h0], fun d hd => hacc d (List.mem_reverse.mp hd)⟩
        · exact ih [] (by simp) w h
      · simp only [pySplitGo, hc, if_false] at hw
        refine ih (c :: acc) ?_ w hw
        intro d hd
        rcases List.mem_cons.mp hd with h | h
        · subst h; simpa using hc
        · exact hacc d h
  exact main s [] (by simp)

theorem takeWhile_append_all {p : Char → Bool} (l₁ l₂ : Str)
    (h : ∀ c ∈ l₁, p c = true) :
    (l₁ ++ l₂).takeWhile p = l₁ ++ l₂.takeWhile p := by
  induction l₁ with
  | nil => simp
  | cons a l ih =>
    rw [List.cons_append, List.takeWhile_cons,
      h a (List.mem_cons_self a l), if_pos rfl, List.cons_append,
      ih (fun c hc => h c (List.mem_cons_of_mem a hc))]

theorem dropWhile_append_all {p : Char → Bool} (l₁ l₂ : Str)
    (h : ∀ c ∈ l₁, p c = true) :
    (l₁ ++ l₂).dropWhile p = l₂.dropWhile p := by
  induction l₁ with
  | nil => simp
  | cons a l ih =>
    rw [List.cons_append, List.dropWhile_cons,
      h a (List.mem_cons_self a l), if_pos rfl]
    exact ih (fun c hc => h c (List.mem_cons_of_mem a hc))

/-- Splitting after joining with single spaces recovers any list of
nonempty whitespace-free words. -/
theorem pySplit_pyJoinSep (ws : List Str)
    (h : ∀ w ∈ ws, w ≠ [] ∧ ∀ c ∈ w, c.isWhitespace = false) :
    pySplit (pyJoinSep [' '] ws) = ws := by
  induction ws with
  | nil => simp [pyJoinSep, pySplit_nil]
  | cons w ws ih =>
    obtain ⟨hw, hwc⟩ := h w (by simp)
    obtain ⟨c, w', rfl⟩ : ∃ c w', w = c :: w' := by
      cases w with
      | nil => exact absurd rfl hw
      | cons c w' => exact ⟨c, w', rfl⟩
    have hnotp : ∀ d ∈ w', (fun d => !d.isWhitespace) d = true := by
      intro d hd; simp [hwc d (by simp [hd])]
    have hcw : ¬ c.isWhitespace := by
      simpa using hwc c (by simp)
    cases ws with
    | nil =>
      simp only [pyJoinSep]
      rw [pySplit_cons_word c w' hcw]
      rw [show w'.takeWhile (fun d => !d.isWhitespace) = w' ++ [].takeWhile (fun d => !d.isWhitespace) from by
            simpa using takeWhile_append_all w' [] hnotp]
      rw [show w'.dropWhile (fun d => !d.isWhitespace) = [].dropWhile (fun d => !d.isWhitespace) from by
            simpa using dropWhile_append_all w' [] hnotp]
      simp [pySplit_nil]
    | cons w₂ ws' =>
      have hjoin : pyJoinSep [' '] ((c :: w') :: w₂ :: ws') =
          c :: (w' ++ ' ' :: pyJoinSep [' '] (w₂ :: ws')) := by
        simp [pyJoinSep]
      rw [hjoin, pySplit_cons_word c _ hcw,
        takeWhile_append_all w' (' ' :: pyJoinSep [' '] (w₂ :: ws')) hnotp,
        dropWhile_append_all w' (' ' :: pyJoinSep [' '] (w₂ :: ws')) hnotp]
      have h1 : (' ' :: pyJoinSep [' '] (w₂ :: ws')).takeWhile
          (fun d => !d.isWhitespace) = [] := by
        simp [List.takeWhile_cons]
      have h2 : (' ' :: pyJoinSep [' '] (w₂ :: ws')).dropWhile
          (fun d => !d.isWhitespace) = ' ' :: pyJoinSep [' '] (w₂ :: ws') := by
        simp [List.dropWhile_cons]
      rw [h1, h2, pySplit_cons_ws ' ' _ (by simp),
        ih (fun w hw => h w (List.mem_cons_of_mem _ hw))]
      simp


/-! ### Lemmas about the placeholder substitution loop -/

theorem length_foldl_set (idx : List Nat) (ws : List Str) :
    (idx.foldl (fun a i => a.set i placeholderWord) ws).length = ws.length := by
  induction idx generalizing ws with
  | nil => rfl
  | cons i rest ih => rw [List.foldl_cons, ih, List.length_set]

theorem getElem?_foldl_set (idx : List Nat) (ws : List Str) (j : Nat) :
    (idx.foldl (fun a i => a.set i placeholderWord) ws)[j]? =
      if j ∈ idx ∧ j < ws.length then some placeholderWord else ws[j]? := by
  induction idx generalizing ws with
  | nil => simp
  | cons i rest ih =>
    rw [List.foldl_cons, ih, List.length_set, List.getElem?_set]
    by_cases h2 : j < ws.length
    · by_cases h1 : j ∈ rest
      · simp [h1, h2]
      · by_cases hij : i = j
        · subst hij
          simp [h2]
        · have hji : ¬ j = i := fun h => hij h.symm
          simp [h1, h2, hij, hji, List.mem_cons]
    · have hn : ws[j]? = none := List.getElem?_eq_none (by omega)
      simp only [h2, and_false, if_false, hn]
      split
      · rename_i hij
        rw [if_neg (by omega)]
      · rfl

theorem foldl_set_eq_mapIdx (idx : List Nat) (ws : List Str) :
    idx.foldl (fun a i => a.set i placeholderWord) ws =
      ws.mapIdx (fun j w => if j ∈ idx then placeholderWord else w) := by
  apply List.ext_getElem?
  intro j
  rw [getElem?_foldl_set, List.getElem?_mapIdx]
  by_cases h2 : j < ws.length
  · rw [List.getElem?_eq_getElem h2]
    by_cases h1 : j ∈ idx <;> simp [h1, h2]
  · have hn : ws[j]? = none := List.getElem?_eq_none (by omega)
    simp [h2, hn]

theorem mem_foldl_set (idx : List Nat) (ws : List Str) :
    ∀ w ∈ idx.foldl (fun a i => a.set i placeholderWord) ws,
      w = placeholderWord ∨ w ∈ ws := by
  intro w hw
  rw [foldl_set_eq_mapIdx] at hw
  rcases List.exists_of_mem_mapIdx hw with ⟨j, hj, heq⟩
  by_cases hmem : j ∈ idx
  · left; rw [← heq]; simp [hmem]
  · right; rw [← heq]; simp only [hmem, if_false]
    exact List.getElem_mem hj

/-- Claim C1: on a text with `n ≥ 1` whitespace-separated words, and for
any admissible sample (distinct in-range indices of the size
`max 1 (n / 5)` the code requests), the function returns a sentence with
the same number of words in which exactly the sampled positions hold the
placeholder `'#######'` and every other word is unchanged in place. -/
theorem C1_insert_placeholders_random_spec
    (choose : Nat → Nat → List Nat) (text : Str)
    (hw : 1 ≤ (pySplit text).length)
    (hbound : ∀ i ∈ choose (pySplit text).length
      (max 1 ((pySplit text).length / 5)), i < (pySplit text).length)
    (hlen : (choose (pySplit text).length
      (max 1 ((pySplit text).length / 5))).length =
        max 1 ((pySplit text).length / 5))
    (hnd : (choose (pySplit text).length
      (max 1 ((pySplit text).length / 5))).Nodup) :
    ∃ out, insert_placeholders_randomE choose text = some out ∧
      pySplit out = (pySplit text).mapIdx (fun j w =>
        if j ∈ choose (pySplit text).length (max 1 ((pySplit text).length / 5))
        then placeholderWord else w) ∧
      (pySplit out).length = (pySplit text).length := by
  have hcount : max 1 ((pySplit text).length / 5) ≤ (pySplit text).length :=
    Nat.max_le.mpr ⟨hw, Nat.div_le_self _ _⟩
  refine ⟨insert_placeholders_random
    (choose (pySplit text).length (max 1 ((pySplit text).length / 5))) text,
    ?_, ?_, ?_⟩
  · simp only [insert_placeholders_randomE, hcount, if_pos]
  · rw [insert_placeholders_random, pySplit_pyJoinSep, foldl_set_eq_mapIdx]
    intro w hw'
    rcases mem_foldl_set _ _ w hw' with h | h
    · subst h
      exact ⟨by decide, by decide⟩
    · exact pySplit_words_ok text w h
  · rw [insert_placeholders_random, pySplit_pyJoinSep, length_foldl_set]
    intro w hw'
    rcases mem_foldl_set _ _ w hw' with h | h
    · subst h
      exact ⟨by decide, by decide⟩
    · exact pySplit_words_ok text w h

/-- Concrete instantiation of `C1_insert_placeholders_random_spec` at the
three-word sentence `"a b c"` with sample `[1]`. -/
theorem C1_insert_placeholders_random_spec_witness :
    ∃ out, insert_placeholders_randomE (fun _ _ => [1]) "a b c".data = some out ∧
      pySplit out = (pySplit "a b c".data).mapIdx (fun j w =>
        if j ∈ [1] then placeholderWord else w) ∧
      (pySplit out).length = (pySplit "a b c".data).length :=
  C1_insert_placeholders_random_spec (fun _ _ => [1]) "a b c".data
    (by decide) (by decide) (by decide) (by decide)

/-- Every string of whitespace splits to no words. -/
theorem pySplit_eq_nil_of_all_ws (text : Str)
    (h : ∀ c ∈ text, c.isWhitespace = true) : pySplit text = [] := by
  induction text with
  | nil => rfl
  | cons c cs ih =>
    rw [pySplit_cons_ws c cs (h c (by simp))]
    exact ih (fun d hd => h d (by simp [hd]))

/-- Claim C8: the function raises `ValueError` (returns `none`) exactly
when the text has no whitespace-separated words; whitespace-only input
has no words, and in that case the requested sample count is
`max(1, 0) = 1`, which exceeds the empty population. -/
theorem C8_insert_placeholders_random_totality
    (choose : Nat → Nat → List Nat) (text : Str) :
    (insert_placeholders_randomE choose text = none ↔ pySplit text = []) ∧
    ((∀ c ∈ text, c.isWhitespace = true) → pySplit text = []) ∧
    (pySplit text = [] → max 1 ((pySplit text).length / 5) = 1) := by
  refine ⟨?_, pySplit_eq_nil_of_all_ws text, ?_⟩
  · unfold insert_placeholders_randomE
    by_cases h0 : (pySplit text).length = 0
    · have hnil : pySplit text = [] := List.length_eq_zero.mp h0
      simp [h0, hnil]
    · have h1 : 1 ≤ (pySplit text).length := by omega
      have hcount : max 1 ((pySplit text).length / 5) ≤ (pySplit text).length :=
        Nat.max_le.mpr ⟨h1, Nat.div_le_self _ _⟩
      simp only [hcount, if_pos]
      constructor
      · intro h; exact absurd h (by simp)
      · intro h; exact absurd (congrArg List.length h) (by simpa using h0)
  · intro h; rw [h]; rfl

/-- Concrete instantiation of `C8_insert_placeholders_random_totality`:
on the whitespace-only input `" "` the word list is empty and the
function raises. -/
theorem C8_insert_placeholders_random_totality_witness :
    pySplit " ".data = [] ∧
    insert_placeholders_randomE (fun _ _ => []) " ".data = none :=
  have h := C8_insert_placeholders_random_totality (fun _ _ => []) " ".data
  ⟨h.2.1 (by decide), h.1.mpr (h.2.1 (by decide))⟩

/-! ### Lemmas about the sequential per-row pipeline -/

theorem mapLogE_eq_of_some (f : α → Option β × List Event) (v : α → β)
    (e : α → Event) (l : List α) (h : ∀ a ∈ l, f a = (some (v a), [e a])) :
    mapLogE f l = (some (l.map v), l.map e) := by
  induction l with
  | nil => rfl
  | cons a as ih =>
    simp only [mapLogE]
    rw [h a (List.mem_cons_self a as),
      ih (fun b hb => h b (List.mem_cons_of_mem a hb))]
    rfl

theorem mapLogE_eq_of_some_nil (f : α → Option β × List Event) (v : α → β)
    (l : List α) (h : ∀ a ∈ l, f a = (some (v a), [])) :
    mapLogE f l = (some (l.map v), []) := by
  induction l with
  | nil => rfl
  | cons a as ih =>
    simp only [mapLogE]
    rw [h a (List.mem_cons_self a as),
      ih (fun b hb => h b (List.mem_cons_of_mem a hb))]
    rfl

theorem mapLogE_write_not_mem (f : α → Option β × List Event) (l : List α)
    (h : ∀ a, Event.write ∉ (f a).2) : Event.write ∉ (mapLogE f l).2 := by
  induction l with
  | nil => simp [mapLogE]
  | cons a as ih =>
    simp only [mapLogE]
    rcases hfa : f a with ⟨ob, ev⟩
    have h1 : Event.write ∉ ev := by
      have := h a; rw [hfa] at this; exact this
    cases ob with
    | none => exact h1
    | some b =>
      rcases hrec : mapLogE f as with ⟨obs, ev2⟩
      have h2 : Event.write ∉ ev2 := by
        rw [hrec] at ih; exact ih
      cases obs with
      | none =>
        show Event.write ∉ ev ++ ev2
        simp [List.mem_append, h1, h2]
      | some bs =>
        show Event.write ∉ ev ++ ev2
        simp [List.mem_append, h1, h2]

namespace Ling

/-- A total-oracle run of the linguistically motivated script: stage 1
masks every sampled row in order, stage 2 fills every row in order, the
write happens last. -/
theorem ling_total_run (f : Str → Str) (src tgt : String) (lang : Str)
    (csw : String) (ss : Option Nat) (df : DataFrame Str) :
    Ling.main (totalOracle f) src tgt lang csw ss df =
      (let df0 := sampleDedup ss src df
       let df1 := dfSetCol df0 "placeholder_text"
         (df0.rows.map (fun r => pyStrip (f (maskPrompt (rowGetS r src)))))
       let df2 := dfSetCol df1 csw (df1.rows.map (fun r =>
         pyStrip (f (fillPrompt lang (rowGetS r "placeholder_text") (rowGetS r tgt)))))
       (some df2,
        df0.rows.map (fun r => Event.call (maskPrompt (rowGetS r src)))
          ++ (df1.rows.map (fun r =>
              Event.call (fillPrompt lang (rowGetS r "placeholder_text") (rowGetS r tgt)))
          ++ [Event.write]))) := by
  simp only [Ling.main, withStage,
    mapLogE_eq_of_some
      (fun r => get_switching_points (totalOracle f) (rowGetS r src))
      (fun r => pyStrip (f (maskPrompt (rowGetS r src))))
      (fun r => Event.call (maskPrompt (rowGetS r src))) _ (fun a _ => rfl),
    mapLogE_eq_of_some
      (fun r => code_switch_text (totalOracle f) (rowGetS r "placeholder_text")
        (rowGetS r tgt) lang)
      (fun r => pyStrip (f (fillPrompt lang (rowGetS r "placeholder_text")
        (rowGetS r tgt))))
      (fun r => Event.call (fillPrompt lang (rowGetS r "placeholder_text")
        (rowGetS r tgt))) _ (fun a _ => rfl)]

end Ling

/-- Assigning a column computed by a row function rewrites each row in
place. -/
theorem dfSetCol_rows_map (df : DataFrame α) (c : String) (g : Row α → α) :
    (dfSetCol df c (df.rows.map g)).rows =
      df.rows.map (fun r => rowSet r c (g r)) := by
  show List.zipWith (fun r v => rowSet r c v) df.rows (df.rows.map g) = _
  rw [List.zipWith_map_right, List.zipWith_same]

theorem sampleDedup_cols [DecidableEq α] (ss : Option Nat) (k : String)
    (df : DataFrame α) : (sampleDedup ss k df).cols = df.cols := by
  cases ss with
  | none => rfl
  | some n =>
    by_cases h : n = 0 <;> simp [sampleDedup, h]

theorem sampleHead_cols (ss : Option Nat) (df : DataFrame α) :
    (sampleHead ss df).cols = df.cols := by
  cases ss with
  | none => rfl
  | some n =>
    by_cases h : n = 0 <;> simp [sampleHead, h]

namespace Reverse

/-- A total-oracle run of the reverse script: stage 1 masks every
sampled row's target text in order, stage 2 inserts English words into
every row in order, the write happens last. -/
theorem reverse_total_run (f : Str → Str) (src tgt : String) (lang : Str)
    (csw : String) (ss : Option Nat) (df : DataFrame Str) :
    Reverse.main (totalOracle f) src tgt lang csw ss df =
      (let df0 := sampleDedup ss tgt df
       let df1 := dfSetCol df0 "masked_target"
         (df0.rows.map (fun r => pyStrip (f (maskPrompt lang (rowGetS r tgt)))))
       let df2 := dfSetCol df1 csw (df1.rows.map (fun r =>
         pyStrip (f (fillPrompt lang (rowGetS r "masked_target") (rowGetS r src)))))
       (some df2,
        df0.rows.map (fun r => Event.call (maskPrompt lang (rowGetS r tgt)))
          ++ (df1.rows.map (fun r =>
              Event.call (fillPrompt lang (rowGetS r "masked_target") (rowGetS r src)))
          ++ [Event.write]))) := by
  simp only [Reverse.main, withStage,
    mapLogE_eq_of_some
      (fun r => mask_target_points (totalOracle f) (rowGetS r tgt) lang)
      (fun r => pyStrip (f (maskPrompt lang (rowGetS r tgt))))
      (fun r => Event.call (maskPrompt lang (rowGetS r tgt))) _ (fun a _ => rfl),
    mapLogE_eq_of_some
      (fun r => insert_english_words (totalOracle f) (rowGetS r "masked_target")
        (rowGetS r src) lang)
      (fun r => pyStrip (f (fillPrompt lang (rowGetS r "masked_target")
        (rowGetS r src))))
      (fun r => Event.call (fillPrompt lang (rowGetS r "masked_target")
        (rowGetS r src))) _ (fun a _ => rfl)]

end Reverse

namespace Rnd

/-- A run of the random script under a total oracle, on a frame whose
source texts all contain at least one word: stage 1 places the random
placeholders locally, issuing no service call; stage 2 fills every row
in order via the service; the write happens last. -/
theorem rnd_total_run (f : Str → Str) (choose : Nat → Nat → List Nat)
    (src tgt : String) (lang : Str) (csw : String) (ss : Option Nat)
    (df : DataFrame Str)
    (hwords : ∀ r ∈ (sampleHead ss df).rows, pySplit (rowGetS r src) ≠ []) :
    Rnd.main (totalOracle f) choose src tgt lang csw ss df =
      (let df0 := sampleHead ss df
       let df1 := dfSetCol df0 "placeholder_text" (df0.rows.map (fun r =>
         insert_placeholders_random
           (choose (pySplit (rowGetS r src)).length
             (max 1 ((pySplit (rowGetS r src)).length / 5)))
           (rowGetS r src)))
       let df2 := dfSetCol df1 csw (df1.rows.map (fun r =>
         pyStrip (f (fillPrompt lang (rowGetS r "placeholder_text") (rowGetS r tgt)))))
       (some df2,
        df1.rows.map (fun r =>
            Event.call (fillPrompt lang (rowGetS r "placeholder_text") (rowGetS r tgt)))
          ++ [Event.write])) := by
  have hstage1 : ∀ r ∈ (sampleHead ss df).rows,
      (fun r => (insert_placeholders_randomE choose (rowGetS r src),
        ([] : List Event))) r =
      (some (insert_placeholders_random
        (choose (pySplit (rowGetS r src)).length
          (max 1 ((pySplit (rowGetS r src)).length / 5)))
        (rowGetS r src)), ([] : List Event)) := by
    intro r hr
    have h1 : 1 ≤ (pySplit (rowGetS r src)).length := by
      have := hwords r hr
      cases hp : pySplit (rowGetS r src) with
      | nil => exact absurd hp this
      | cons a l => simp [hp]
    have hcount : max 1 ((pySplit (rowGetS r src)).length / 5) ≤
        (pySplit (rowGetS r src)).length :=
      Nat.max_le.mpr ⟨h1, Nat.div_le_self _ _⟩
    simp [insert_placeholders_randomE, hcount]
  simp only [Rnd.main, withStage, mapLogE_eq_of_some_nil _ _ _ hstage1,
    mapLogE_eq_of_some
      (fun r => code_switch_text (totalOracle f) (rowGetS r "placeholder_text")
        (rowGetS r tgt) lang)
      (fun r => pyStrip (f (fillPrompt lang (rowGetS r "placeholder_text")
        (rowGetS r tgt))))
      (fun r => Event.call (fillPrompt lang (rowGetS r "placeholder_text")
        (rowGetS r tgt))) _ (fun a _ => rfl),
    List.nil_append]

end Rnd

namespace Multi

/-- A total-oracle run of the multi-language script when the input frame
has no `placeholder_text` column: both stages run in row order, the
write happens last. -/
theorem main_total_run_fresh (f : Str → Str) (src : String)
    (tcols : List String) (tlangs : List Str) (csw : String)
    (ss : Option Nat) (df : DataFrame Str)
    (hlen : tcols.length = tlangs.length)
    (hph : "placeholder_text" ∉ df.cols) :
    Multi.main (totalOracle f) src tcols tlangs csw ss df =
      (let df0 := sampleDedup ss src df
       let df1 := dfSetCol df0 "placeholder_text"
         (df0.rows.map (fun r => pyStrip (f (maskPrompt (rowGetS r src)))))
       let df2 := dfSetCol df1 csw (df1.rows.map (fun r =>
         pyStrip (f (fillPrompt (rowGetS r "placeholder_text")
           (tcols.map (fun c => rowGetS r c)) tlangs))))
       (some df2,
        df0.rows.map (fun r => Event.call (maskPrompt (rowGetS r src)))
          ++ (df1.rows.map (fun r =>
              Event.call (fillPrompt (rowGetS r "placeholder_text")
                (tcols.map (fun c => rowGetS r c)) tlangs))
          ++ [Event.write]))) := by
  have hph0 : "placeholder_text" ∉ (sampleDedup ss src df).cols := by
    rw [sampleDedup_cols]; exact hph
  simp only [Multi.main, withStage, hlen, ne_eq, not_true_eq_false, if_false, hph0,
    ite_false, Multi.stage2,
    mapLogE_eq_of_some
      (fun r => get_switching_points (totalOracle f) (rowGetS r src))
      (fun r => pyStrip (f (maskPrompt (rowGetS r src))))
      (fun r => Event.call (maskPrompt (rowGetS r src))) _ (fun a _ => rfl),
    mapLogE_eq_of_some
      (fun r => code_switch_multi (totalOracle f) (rowGetS r "placeholder_text")
        (tcols.map (fun c => rowGetS r c)) tlangs)
      (fun r => pyStrip (f (fillPrompt (rowGetS r "placeholder_text")
        (tcols.map (fun c => rowGetS r c)) tlangs)))
      (fun r => Event.call (fillPrompt (rowGetS r "placeholder_text")
        (tcols.map (fun c => rowGetS r c)) tlangs)) _ (fun a _ => rfl)]

/-- A total-oracle run of the multi-language script when the input frame
already has a `placeholder_text` column: stage 1 is skipped entirely and
only the filling stage runs, one call per row, the write last. -/
theorem main_total_run_existing (f : Str → Str) (src : String)
    (tcols : List String) (tlangs : List Str) (csw : String)
    (ss : Option Nat) (df : DataFrame Str)
    (hlen : tcols.length = tlangs.length)
    (hph : "placeholder_text" ∈ df.cols) :
    Multi.main (totalOracle f) src tcols tlangs csw ss df =
      (let df0 := sampleDedup ss src df
       let df2 := dfSetCol df0 csw (df0.rows.map (fun r =>
         pyStrip (f (fillPrompt (rowGetS r "placeholder_text")
           (tcols.map (fun c => rowGetS r c)) tlangs))))
       (some df2,
        df0.rows.map (fun r =>
            Event.call (fillPrompt (rowGetS r "placeholder_text")
              (tcols.map (fun c => rowGetS r c)) tlangs))
          ++ [Event.write])) := by
  have hph0 : "placeholder_text" ∈ (sampleDedup ss src df).cols := by
    rw [sampleDedup_cols]; exact hph
  simp only [Multi.main, withStage, hlen, ne_eq, not_true_eq_false, if_false, hph0,
    ite_true, Multi.stage2,
    mapLogE_eq_of_some
      (fun r => code_switch_multi (totalOracle f) (rowGetS r "placeholder_text")
        (tcols.map (fun c => rowGetS r c)) tlangs)
      (fun r => pyStrip (f (fillPrompt (rowGetS r "placeholder_text")
        (tcols.map (fun c => rowGetS r c)) tlangs)))
      (fun r => Event.call (fillPrompt (rowGetS r "placeholder_text")
        (tcols.map (fun c => rowGetS r c)) tlangs)) _ (fun a _ => rfl),
    List.nil_append]

end Multi

/-- If a stage's events contain no write, and the continuation reaches
no write whenever it fails, then a failing composition reaches no
write. -/
theorem withStage_no_write (res : Option (List β) × List Event)
    (k : List β → Option γ × List Event)
    (h1 : Event.write ∉ res.2)
    (h2 : ∀ bs, (k bs).1 = none → Event.write ∉ (k bs).2)
    (hfail : (withStage res k).1 = none) :
    Event.write ∉ (withStage res k).2 := by
  rcases res with ⟨o, ev⟩
  cases o with
  | none => exact h1
  | some bs =>
    simp only [withStage] at hfail ⊢
    intro hmem
    rcases List.mem_append.mp hmem with h | h
    · exact h1 h
    · exact h2 bs hfail h

namespace Ling

/-- If any service call of the linguistically motivated script raises,
`main` propagates the exception and never reaches the CSV write. -/
theorem main_fail_no_write (oracle : Oracle) (src tgt : String) (lang : Str)
    (csw : String) (ss : Option Nat) (df : DataFrame Str)
    (h : (Ling.main oracle src tgt lang csw ss df).1 = none) :
    Event.write ∉ (Ling.main oracle src tgt lang csw ss df).2 := by
  have hst1 : ∀ r : Row Str, Event.write ∉
      (get_switching_points oracle (rowGetS r src)).2 := by
    intro r; simp [get_switching_points, invoke_claude]
  have hst2 : ∀ r : Row Str, Event.write ∉
      (code_switch_text oracle (rowGetS r "placeholder_text")
        (rowGetS r tgt) lang).2 := by
    intro r; simp [code_switch_text, invoke_claude]
  unfold Ling.main at h ⊢
  refine withStage_no_write _ _ (mapLogE_write_not_mem _ _ hst1) ?_ h
  intro phs hfail
  refine withStage_no_write _ _ (mapLogE_write_not_mem _ _ hst2) ?_ hfail
  intro css hbad
  exact absurd hbad (by simp)

end Ling

/-! ### Prompt templates of distinct stages differ -/

set_option maxRecDepth 4000 in
theorem ling_mask_ne_fill (t lang pt tt : Str) :
    Ling.maskPrompt t ≠ Ling.fillPrompt lang pt tt := by
  intro h
  have h5 := congrArg (fun l : Str => l[5]?) h
  simp only [Ling.maskPrompt, Ling.fillPrompt, List.append_assoc] at h5
  rw [List.getElem?_append_left (by decide),
    List.getElem?_append_left (by decide)] at h5
  exact absurd h5 (by decide)

set_option maxRecDepth 4000 in
theorem reverse_mask_ne_fill (lang t lang' pt et : Str) :
    Reverse.maskPrompt lang t ≠ Reverse.fillPrompt lang' pt et := by
  intro h
  have h5 := congrArg (fun l : Str => l[5]?) h
  simp only [Reverse.maskPrompt, Reverse.fillPrompt, List.append_assoc] at h5
  rw [List.getElem?_append_left (by decide),
    List.getElem?_append_left (by decide)] at h5
  exact absurd h5 (by decide)

set_option maxRecDepth 4000 in
theorem multi_mask_ne_fill (t pt : Str) (tts tls : List Str) :
    Multi.maskPrompt t ≠ Multi.fillPrompt pt tts tls := by
  intro h
  have h10 := congrArg (fun l : Str => l[10]?) h
  simp only [Multi.maskPrompt, Multi.fillPrompt, List.append_assoc] at h10
  rw [List.getElem?_append_left (by decide),
    List.getElem?_append_left (by decide)] at h10
  exact absurd h10 (by decide)

/-! ### Claims C2 to C5: per-row service calls, failure behaviour,
sequencing and the shared mask-then-fill shape -/

/-- Claim C4: in every code-switching script, processing is sequential
in dataframe row order: the whole masking stage (when it runs) precedes
the whole filling stage, each visiting the rows in order, and the write
is last.  The multi-language script skips the masking stage entirely
when the input already has a `placeholder_text` column. -/
theorem C4_sequential_processing :
    (∀ (f : Str → Str) (src tgt : String) (lang : Str) (csw : String)
        (ss : Option Nat) (df : DataFrame Str),
      (Ling.main (totalOracle f) src tgt lang csw ss df).2 =
        (sampleDedup ss src df).rows.map
            (fun r => Event.call (Ling.maskPrompt (rowGetS r src)))
          ++ ((dfSetCol (sampleDedup ss src df) "placeholder_text"
                ((sampleDedup ss src df).rows.map
                  (fun r => pyStrip (f (Ling.maskPrompt (rowGetS r src)))))).rows.map
              (fun r => Event.call (Ling.fillPrompt lang
                (rowGetS r "placeholder_text") (rowGetS r tgt)))
            ++ [Event.write])) ∧
    (∀ (f : Str → Str) (src tgt : String) (lang : Str) (csw : String)
        (ss : Option Nat) (df : DataFrame Str),
      (Reverse.main (totalOracle f) src tgt lang csw ss df).2 =
        (sampleDedup ss tgt df).rows.map
            (fun r => Event.call (Reverse.maskPrompt lang (rowGetS r tgt)))
          ++ ((dfSetCol (sampleDedup ss tgt df) "masked_target"
                ((sampleDedup ss tgt df).rows.map
                  (fun r => pyStrip (f (Reverse.maskPrompt lang (rowGetS r tgt)))))).rows.map
              (fun r => Event.call (Reverse.fillPrompt lang
                (rowGetS r "masked_target") (rowGetS r src)))
            ++ [Event.write])) ∧
    (∀ (f : Str → Str) (choose : Nat → Nat → List Nat) (src tgt : String)
        (lang : Str) (csw : String) (ss : Option Nat) (df : DataFrame Str),
      (∀ r ∈ (sampleHead ss df).rows, pySplit (rowGetS r src) ≠ []) →
      (Rnd.main (totalOracle f) choose src tgt lang csw ss df).2 =
        (dfSetCol (sampleHead ss df) "placeholder_text"
            ((sampleHead ss df).rows.map (fun r =>
              insert_placeholders_random
                (choose (pySplit (rowGetS r src)).length
                  (max 1 ((pySplit (rowGetS r src)).length / 5)))
                (rowGetS r src)))).rows.map
            (fun r => Event.call (Rnd.fillPrompt lang
              (rowGetS r "placeholder_text") (rowGetS r tgt)))
          ++ [Event.write]) ∧
    (∀ (f : Str → Str) (src : String) (tcols : List String) (tlangs : List Str)
        (csw : String) (ss : Option Nat) (df : DataFrame Str),
      tcols.length = tlangs.length → "placeholder_text" ∉ df.cols →
      (Multi.main (totalOracle f) src tcols tlangs csw ss df).2 =
        (sampleDedup ss src df).rows.map
            (fun r => Event.call (Multi.maskPrompt (rowGetS r src)))
          ++ ((dfSetCol (sampleDedup ss src df) "placeholder_text"
                ((sampleDedup ss src df).rows.map
                  (fun r => pyStrip (f (Multi.maskPrompt (rowGetS r src)))))).rows.map
              (fun r => Event.call (Multi.fillPrompt
                (rowGetS r "placeholder_text")
                (tcols.map (fun c => rowGetS r c)) tlangs))
            ++ [Event.write])) ∧
    (∀ (f : Str → Str) (src : String) (tcols : List String) (tlangs : List Str)
        (csw : String) (ss : Option Nat) (df : DataFrame Str),
      tcols.length = tlangs.length → "placeholder_text" ∈ df.cols →
      (Multi.main (totalOracle f) src tcols tlangs csw ss df).2 =
        (sampleDedup ss src df).rows.map
            (fun r => Event.call (Multi.fillPrompt (rowGetS r "placeholder_text")
              (tcols.map (fun c => rowGetS r c)) tlangs))
          ++ [Event.write]) := by
  refine ⟨?_, ?_, ?_, ?_, ?_⟩
  · intro f src tgt lang csw ss df
    rw [Ling.ling_total_run]
  · intro f src tgt lang csw ss df
    rw [Reverse.reverse_total_run]
  · intro f choose src tgt lang csw ss df hw
    rw [Rnd.rnd_total_run f choose src tgt lang csw ss df hw]
  · intro f src tcols tlangs csw ss df hlen hph
    rw [Multi.main_total_run_fresh f src tcols tlangs csw ss df hlen hph]
  · intro f src tcols tlangs csw ss df hlen hph
    rw [Multi.main_total_run_existing f src tcols tlangs csw ss df hlen hph]

set_option maxRecDepth 40000 in
/-- Concrete instantiation of `C4_sequential_processing` on one-row
frames, for the conjuncts carrying hypotheses. -/
theorem C4_sequential_processing_witness :
    (Rnd.main (totalOracle wOracle) wChoose "src" "tgt" ['L'] "csw" none wDF).2 =
      [Event.call (Rnd.fillPrompt ['L'] "#######".data ['b']), Event.write] ∧
    (Multi.main (totalOracle wOracle) "src" ["tgt"] [['L']] "csw" none wDF).2 =
      [Event.call (Multi.maskPrompt ['a']),
       Event.call (Multi.fillPrompt ['r'] [['b']] [['L']]), Event.write] ∧
    (Multi.main (totalOracle wOracle) "src" ["tgt"] [['L']] "csw" none wDFph).2 =
      [Event.call (Multi.fillPrompt ['p'] [['b']] [['L']]), Event.write] := by
  have h := C4_sequential_processing
  refine ⟨?_, ?_, ?_⟩
  · exact (h.2.2.1 wOracle wChoose "src" "tgt" ['L'] "csw" none wDF
      (by decide)).trans (by decide)
  · exact (h.2.2.2.1 wOracle "src" ["tgt"] [['L']] "csw" none wDF
      rfl (by decide)).trans (by decide)
  · exact (h.2.2.2.2 wOracle "src" ["tgt"] [['L']] "csw" none wDFph
      rfl (by decide)).trans (by decide)

/-- Claim C3: in the linguistically motivated script each stage calls
the service exactly once per row with no retry loop; a raised call makes
`main` propagate the exception and the CSV write never happens (it is
reached only after both stages completed for every row, as the last
event). -/
theorem C3_single_call_no_retry_fail_propagates :
    (∀ (oracle : Oracle) (src tgt : String) (lang : Str) (csw : String)
        (ss : Option Nat) (df : DataFrame Str),
      (Ling.main oracle src tgt lang csw ss df).1 = none →
      Event.write ∉ (Ling.main oracle src tgt lang csw ss df).2) ∧
    (∀ (f : Str → Str) (src tgt : String) (lang : Str) (csw : String)
        (ss : Option Nat) (df : DataFrame Str),
      ∃ maskEvents fillEvents : List Event,
        (Ling.main (totalOracle f) src tgt lang csw ss df).2 =
          maskEvents ++ (fillEvents ++ [Event.write]) ∧
        maskEvents.length = (sampleDedup ss src df).rows.length ∧
        fillEvents.length = (sampleDedup ss src df).rows.length ∧
        ∀ e ∈ maskEvents ++ fillEvents, ∃ p, e = Event.call p) := by
  constructor
  · intro oracle src tgt lang csw ss df h
    exact Ling.main_fail_no_write oracle src tgt lang csw ss df h
  · intro f src tgt lang csw ss df
    refine ⟨(sampleDedup ss src df).rows.map
        (fun r => Event.call (Ling.maskPrompt (rowGetS r src))),
      (dfSetCol (sampleDedup ss src df) "placeholder_text"
        ((sampleDedup ss src df).rows.map
          (fun r => pyStrip (f (Ling.maskPrompt (rowGetS r src)))))).rows.map
        (fun r => Event.call (Ling.fillPrompt lang
          (rowGetS r "placeholder_text") (rowGetS r tgt))),
      ?_, ?_, ?_, ?_⟩
    · rw [Ling.ling_total_run]
    · simp
    · rw [dfSetCol_rows_map]
      simp
    · intro e he
      rcases List.mem_append.mp he with h | h <;>
        rcases List.mem_map.mp h with ⟨r, _, rfl⟩ <;> exact ⟨_, rfl⟩

/-- Concrete instantiation of `C3_single_call_no_retry_fail_propagates`:
an always-raising oracle makes the run fail and the trace contains no
write. -/
theorem C3_single_call_no_retry_fail_propagates_witness :
    (Ling.main (fun _ => none) "src" "tgt" ['L'] "csw" none wDF).1 = none ∧
    Event.write ∉ (Ling.main (fun _ => none) "src" "tgt" ['L'] "csw" none wDF).2 :=
  ⟨rfl, C3_single_call_no_retry_fail_propagates.1 (fun _ => none)
    "src" "tgt" ['L'] "csw" none wDF rfl⟩

/-- Counterexample to claim C2 as stated: in the random script a
processed row triggers exactly one service call, not two — the
placeholder text is produced locally by `insert_placeholders_random`
with no call. -/
theorem C2_counterexample_random_single_call :
    (Rnd.main (totalOracle wOracle) wChoose "src" "tgt" ['L'] "csw" none wDF).2.countP
        Event.isCall = 1 ∧
    (sampleHead none wDF).rows.length = 1 ∧
    (Rnd.main (totalOracle wOracle) wChoose "src" "tgt" ['L'] "csw" none wDF).2.countP
        Event.isCall ≠
      2 * (sampleHead none wDF).rows.length := by
  refine ⟨?_, rfl, ?_⟩ <;> decide

/-- Claim C2 amended: the linguistically motivated, reverse, and
multi-language (when no placeholder column pre-exists) scripts call the
service exactly twice per processed row — a mask call and a fill call
with different prompts — while the random script calls it exactly once
per row (fill only); in each case the CSV write happens only after all
calls. -/
theorem C2_amended_calls_per_row :
    (∀ (f : Str → Str) (src tgt : String) (lang : Str) (csw : String)
        (ss : Option Nat) (df : DataFrame Str),
      ∃ calls : List Event,
        (Ling.main (totalOracle f) src tgt lang csw ss df).2 =
          calls ++ [Event.write] ∧
        calls.countP Event.isCall = 2 * (sampleDedup ss src df).rows.length ∧
        calls.length = 2 * (sampleDedup ss src df).rows.length) ∧
    (∀ t lang pt tt, Ling.maskPrompt t ≠ Ling.fillPrompt lang pt tt) ∧
    (∀ (f : Str → Str) (src tgt : String) (lang : Str) (csw : String)
        (ss : Option Nat) (df : DataFrame Str),
      ∃ calls : List Event,
        (Reverse.main (totalOracle f) src tgt lang csw ss df).2 =
          calls ++ [Event.write] ∧
        calls.countP Event.isCall = 2 * (sampleDedup ss tgt df).rows.length ∧
        calls.length = 2 * (sampleDedup ss tgt df).rows.length) ∧
    (∀ lang t lang' pt et, Reverse.maskPrompt lang t ≠ Reverse.fillPrompt lang' pt et) ∧
    (∀ (f : Str → Str) (src : String) (tcols : List String) (tlangs : List Str)
        (csw : String) (ss : Option Nat) (df : DataFrame Str),
      tcols.length = tlangs.length → "placeholder_text" ∉ df.cols →
      ∃ calls : List Event,
        (Multi.main (totalOracle f) src tcols tlangs csw ss df).2 =
          calls ++ [Event.write] ∧
        calls.countP Event.isCall = 2 * (sampleDedup ss src df).rows.length ∧
        calls.length = 2 * (sampleDedup ss src df).rows.length) ∧
    (∀ t pt tts tls, Multi.maskPrompt t ≠ Multi.fillPrompt pt tts tls) ∧
    (∀ (f : Str → Str) (choose : Nat → Nat → List Nat) (src tgt : String)
        (lang : Str) (csw : String) (ss : Option Nat) (df : DataFrame Str),
      (∀ r ∈ (sampleHead ss df).rows, pySplit (rowGetS r src) ≠ []) →
      ∃ calls : List Event,
        (Rnd.main (totalOracle f) choose src tgt lang csw ss df).2 =
          calls ++ [Event.write] ∧
        calls.countP Event.isCall = (sampleHead ss df).rows.length ∧
        calls.length = (sampleHead ss df).rows.length) := by
  refine ⟨?_, ling_mask_ne_fill, ?_, reverse_mask_ne_fill,
    ?_, multi_mask_ne_fill, ?_⟩
  · intro f src tgt lang csw ss df
    refine ⟨(sampleDedup ss src df).rows.map
        (fun r => Event.call (Ling.maskPrompt (rowGetS r src)))
      ++ (dfSetCol (sampleDedup ss src df) "placeholder_text"
          ((sampleDedup ss src df).rows.map
            (fun r => pyStrip (f (Ling.maskPrompt (rowGetS r src)))))).rows.map
        (fun r => Event.call (Ling.fillPrompt lang
          (rowGetS r "placeholder_text") (rowGetS r tgt))), ?_, ?_, ?_⟩
    · rw [Ling.ling_total_run, List.append_assoc]
    · rw [List.countP_append, List.countP_map, List.countP_map,
        dfSetCol_rows_map, List.countP_map, Nat.two_mul]
      congr 1 <;> exact List.countP_eq_length.mpr (fun b _ => rfl)
    · rw [List.length_append, dfSetCol_rows_map]
      simp [Nat.two_mul]
  · intro f src tgt lang csw ss df
    refine ⟨(sampleDedup ss tgt df).rows.map
        (fun r => Event.call (Reverse.maskPrompt lang (rowGetS r tgt)))
      ++ (dfSetCol (sampleDedup ss tgt df) "masked_target"
          ((sampleDedup ss tgt df).rows.map
            (fun r => pyStrip (f (Reverse.maskPrompt lang (rowGetS r tgt)))))).rows.map
        (fun r => Event.call (Reverse.fillPrompt lang
          (rowGetS r "masked_target") (rowGetS r src))), ?_, ?_, ?_⟩
    · rw [Reverse.reverse_total_run, List.append_assoc]
    · rw [List.countP_append, List.countP_map, List.countP_map,
        dfSetCol_rows_map, List.countP_map, Nat.two_mul]
      congr 1 <;> exact List.countP_eq_length.mpr (fun b _ => rfl)
    · rw [List.length_append, dfSetCol_rows_map]
      simp [Nat.two_mul]
  · intro f src tcols tlangs csw ss df hlen hph
    refine ⟨(sampleDedup ss src df).rows.map
        (fun r => Event.call (Multi.maskPrompt (rowGetS r src)))
      ++ (dfSetCol (sampleDedup ss src df) "placeholder_text"
          ((sampleDedup ss src df).rows.map
            (fun r => pyStrip (f (Multi.maskPrompt (rowGetS r src)))))).rows.map
        (fun r => Event.call (Multi.fillPrompt (rowGetS r "placeholder_text")
          (tcols.map (fun c => rowGetS r c)) tlangs)), ?_, ?_, ?_⟩
    · rw [Multi.main_total_run_fresh f src tcols tlangs csw ss df hlen hph,
        List.append_assoc]
    · rw [List.countP_append, List.countP_map, List.countP_map,
        dfSetCol_rows_map, List.countP_map, Nat.two_mul]
      congr 1 <;> exact List.countP_eq_length.mpr (fun b _ => rfl)
    · rw [List.length_append, dfSetCol_rows_map]
      simp [Nat.two_mul]
  · intro f choose src tgt lang csw ss df hw
    refine ⟨(dfSetCol (sampleHead ss df) "placeholder_text"
        ((sampleHead ss df).rows.map (fun r =>
          insert_placeholders_random
            (choose (pySplit (rowGetS r src)).length
              (max 1 ((pySplit (rowGetS r src)).length / 5)))
            (rowGetS r src)))).rows.map
        (fun r => Event.call (Rnd.fillPrompt lang
          (rowGetS r "placeholder_text") (rowGetS r tgt))), ?_, ?_, ?_⟩
    · rw [Rnd.rnd_total_run f choose src tgt lang csw ss df hw]
    · rw [List.countP_map, dfSetCol_rows_map, List.countP_map]
      exact List.countP_eq_length.mpr (fun b _ => rfl)
    · rw [dfSetCol_rows_map]
      simp

/-- Concrete instantiation of `C2_amended_calls_per_row` for the
hypothesis-carrying conjuncts, on one-row frames. -/
theorem C2_amended_calls_per_row_witness :
    (∃ calls : List Event,
      (Rnd.main (totalOracle wOracle) wChoose "src" "tgt" ['L'] "csw" none wDF).2 =
        calls ++ [Event.write] ∧
      calls.countP Event.isCall = (sampleHead none wDF).rows.length ∧
      calls.length = (sampleHead none wDF).rows.length) ∧
    (∃ calls : List Event,
      (Multi.main (totalOracle wOracle) "src" ["tgt"] [['L']] "csw" none wDF).2 =
        calls ++ [Event.write] ∧
      calls.countP Event.isCall = 2 * (sampleDedup none "src" wDF).rows.length ∧
      calls.length = 2 * (sampleDedup none "src" wDF).rows.length) :=
  ⟨C2_amended_calls_per_row.2.2.2.2.2.2 wOracle wChoose "src" "tgt" ['L'] "csw"
      none wDF (by decide),
   C2_amended_calls_per_row.2.2.2.2.1 wOracle "src" ["tgt"] [['L']] "csw"
      none wDF rfl (by decide)⟩

/-- Counterexample to claim C5 as stated: the mask stage of the random
script is not of the form `text ↦ strip(invoke_claude(prompt(text)))`
for any prompt template — on the one-word sentence `"x"` with sample
`[0]` its output is the fixed local placeholder text and is independent
of the service. -/
theorem C5_counterexample_random_mask_not_llm :
    ¬ ∃ template : Str → Str, ∀ oracle : Str → Str,
        insert_placeholders_random [0] ['x'] = pyStrip (oracle (template ['x'])) := by
  rintro ⟨p, h⟩
  have h1 : insert_placeholders_random [0] ['x'] = pyStrip ['a'] :=
    h (fun _ => ['a'])
  exact absurd h1 (by decide)

/-- Claim C5 amended: the three noun-masking scripts share the literal
stage shape `strip ∘ invoke_claude ∘ template`, as do all four filling
stages, so those pipelines coincide up to the prompt strings; the random
script's mask stage, however, is local random placeholder insertion and
is not of that shape for any template. -/
theorem C5_amended_mask_fill_shape :
    (∃ template, ∀ (oracle : Oracle) (t : Str),
      Ling.get_switching_points oracle t = llmStage1 template oracle t) ∧
    (∃ template, ∀ (oracle : Oracle) (t : Str),
      Multi.get_switching_points oracle t = llmStage1 template oracle t) ∧
    (∀ lang, ∃ template, ∀ (oracle : Oracle) (t : Str),
      Reverse.mask_target_points oracle t lang = llmStage1 template oracle t) ∧
    (∀ lang, ∃ template, ∀ (oracle : Oracle) (pt tt : Str),
      Ling.code_switch_text oracle pt tt lang = llmStage2 template oracle pt tt) ∧
    (∀ lang, ∃ template, ∀ (oracle : Oracle) (pt tt : Str),
      Rnd.code_switch_text oracle pt tt lang = llmStage2 template oracle pt tt) ∧
    (∀ lang, ∃ template, ∀ (oracle : Oracle) (pt et : Str),
      Reverse.insert_english_words oracle pt et lang = llmStage2 template oracle pt et) ∧
    (∀ tlangs, ∃ template, ∀ (oracle : Oracle) (pt : Str) (tts : List Str),
      Multi.code_switch_multi oracle pt tts tlangs = llmStageL template oracle pt tts) ∧
    (¬ ∃ template : Str → Str, ∀ (oracle : Str → Str) (t : Str),
      insert_placeholders_random [0] t = pyStrip (oracle (template t))) := by
  refine ⟨⟨Ling.maskPrompt, fun o t => rfl⟩,
    ⟨Multi.maskPrompt, fun o t => rfl⟩,
    fun lang => ⟨fun t => Reverse.maskPrompt lang t, fun o t => rfl⟩,
    fun lang => ⟨fun pt tt => Ling.fillPrompt lang pt tt, fun o pt tt => rfl⟩,
    fun lang => ⟨fun pt tt => Rnd.fillPrompt lang pt tt, fun o pt tt => rfl⟩,
    fun lang => ⟨fun pt et => Reverse.fillPrompt lang pt et, fun o pt et => rfl⟩,
    fun tlangs => ⟨fun pt tts => Multi.fillPrompt pt tts tlangs, fun o pt tts => rfl⟩,
    ?_⟩
  rintro ⟨p, h⟩
  have h1 : insert_placeholders_random [0] ['x'] = pyStrip ['a'] :=
    h (fun _ => ['a']) ['x']
  exact absurd h1 (by decide)

/-! ### Claim C10: sampling semantics -/

theorem dropDupsBy_sublist (key : String) :
    ∀ (rows : List (Row Str)) (seen : List (Option Str)),
      (dropDupsBy key rows seen).Sublist rows := by
  intro rows
  induction rows with
  | nil => intro seen; simp [dropDupsBy]
  | cons r rs ih =>
    intro seen
    by_cases h : (r.lookup key) ∈ seen
    · simp only [dropDupsBy, h, if_true]
      exact (ih seen).cons r
    · simp only [dropDupsBy, h, if_false]
      exact (ih _).cons₂ r

theorem dropDupsBy_keys_nodup (key : String) :
    ∀ (rows : List (Row Str)) (seen : List (Option Str)),
      ((dropDupsBy key rows seen).map (fun r => r.lookup key)).Nodup ∧
      ∀ v ∈ (dropDupsBy key rows seen).map (fun r => r.lookup key), v ∉ seen := by
  intro rows
  induction rows with
  | nil => intro seen; simp [dropDupsBy]
  | cons r rs ih =>
    intro seen
    by_cases h : (r.lookup key) ∈ seen
    · simp only [dropDupsBy, h, if_true]
      exact ih seen
    · simp only [dropDupsBy, h, if_false, List.map_cons, List.nodup_cons]
      obtain ⟨ihn, ihs⟩ := ih (r.lookup key :: seen)
      refine ⟨⟨?_, ihn⟩, ?_⟩
      · intro hmem
        exact (ihs _ hmem) (List.mem_cons_self _ _)
      · intro v hv
        rcases List.mem_cons.mp hv with rfl | hv'
        · exact h
        · intro hseen
          exact (ihs v hv') (List.mem_cons_of_mem _ hseen)

theorem dropDupsBy_keeps_first (key : String) :
    ∀ (rows : List (Row Str)) (seen : List (Option Str)) (i : Nat)
      (hi : i < rows.length),
      (rows[i]).lookup key ∉ seen →
      (∀ j, (hj : j < i) → (rows[j]).lookup key ≠ (rows[i]).lookup key) →
      rows[i] ∈ dropDupsBy key rows seen := by
  intro rows
  induction rows with
  | nil => intro seen i hi; simp at hi
  | cons r rs ih =>
    intro seen i hi hseen hfirst
    cases i with
    | zero =>
      simp only [List.getElem_cons_zero] at hseen ⊢
      simp only [dropDupsBy, hseen, if_false]
      exact List.mem_cons_self _ _
    | succ i' =>
      simp only [List.getElem_cons_succ] at hseen hfirst ⊢
      by_cases h : (r.lookup key) ∈ seen
      · simp only [dropDupsBy, h, if_true]
        refine ih seen i' (by simpa using hi) hseen ?_
        intro j hj
        have := hfirst (j + 1) (by omega)
        simpa using this
      · simp only [dropDupsBy, h, if_false]
        refine List.mem_cons_of_mem _ ?_
        refine ih (r.lookup key :: seen) i' (by simpa using hi) ?_ ?_
        · intro hmem
          rcases List.mem_cons.mp hmem with heq | hmem'
          · exact hfirst 0 (by omega) (by simpa using heq.symm)
          · exact hseen hmem'
        · intro j hj
          have := hfirst (j + 1) (by omega)
          simpa using this

/-- Claim C10: with a nonzero sample size the dedup-sampling scripts
drop duplicate rows of the key column (keeping each first occurrence)
and then keep the first `n` remaining rows, while the random script
keeps the first `n` rows without deduplication; a missing or zero
sample size keeps all rows (Python treats `0` as falsy). -/
theorem C10_sample_size_semantics :
    (∀ (n : Nat) (key : String) (df : DataFrame Str), n ≠ 0 →
      (sampleDedup (some n) key df).rows = (dropDupsBy key df.rows []).take n) ∧
    (∀ (n : Nat) (df : DataFrame Str), n ≠ 0 →
      (sampleHead (some n) df).rows = df.rows.take n) ∧
    (∀ (key : String) (df : DataFrame Str),
      sampleDedup none key df = df ∧ sampleDedup (some 0) key df = df) ∧
    (∀ df : DataFrame Str, sampleHead none df = df ∧ sampleHead (some 0) df = df) ∧
    (∀ (key : String) (rows : List (Row Str)),
      (dropDupsBy key rows []).Sublist rows ∧
      ((dropDupsBy key rows []).map (fun r => r.lookup key)).Nodup) ∧
    (∀ (key : String) (rows : List (Row Str)) (i : Nat) (hi : i < rows.length),
      (∀ j, (hj : j < i) → (rows[j]).lookup key ≠ (rows[i]).lookup key) →
      rows[i] ∈ dropDupsBy key rows []) := by
  refine ⟨?_, ?_, ?_, ?_, ?_, ?_⟩
  · intro n key df hn
    simp [sampleDedup, hn]
  · intro n df hn
    simp [sampleHead, hn]
  · intro key df
    exact ⟨rfl, by simp [sampleDedup]⟩
  · intro df
    exact ⟨rfl, by simp [sampleHead]⟩
  · intro key rows
    exact ⟨dropDupsBy_sublist key rows [], (dropDupsBy_keys_nodup key rows []).1⟩
  · intro key rows i hi hfirst
    exact dropDupsBy_keeps_first key rows [] i hi (by simp) hfirst

/-- Concrete instantiation of `C10_sample_size_semantics` on a
three-row frame with a duplicated key value. -/
theorem C10_sample_size_semantics_witness :
    (sampleDedup (some 2) "k"
        ⟨["k"], [[("k", ['a'])], [("k", ['a'])], [("k", ['b'])]]⟩).rows =
      (dropDupsBy "k" [[("k", ['a'])], [("k", ['a'])], [("k", ['b'])]] []).take 2 ∧
    [("k", ['b'])] ∈
      dropDupsBy "k" [[("k", ['a'])], [("k", ['a'])], [("k", ['b'])]] [] := by
  constructor
  · exact C10_sample_size_semantics.1 2 "k"
      ⟨["k"], [[("k", ['a'])], [("k", ['a'])], [("k", ['b'])]]⟩ (by decide)
  · exact C10_sample_size_semantics.2.2.2.2.2 "k"
      [[("k", ['a'])], [("k", ['a'])], [("k", ['b'])]] 2 (by decide) (by decide)

/-! ### Claim C9: the scripts only add their two columns -/

theorem lookup_map_replace (c : String) (v : α) (r : Row α) :
    (r.map (fun p => if p.1 = c then (c, v) else p)).lookup c =
      if (r.lookup c).isSome then some v else none := by
  induction r with
  | nil => simp
  | cons p r' ih =>
    rcases p with ⟨k, x⟩
    by_cases h : k = c
    · subst h
      simp [List.lookup_cons]
    · have hck : (c == k) = false := by
        simp [beq_iff_eq]; exact fun hh => h hh.symm
      simp only [List.map_cons, h, if_false, List.lookup_cons, hck, ih]

theorem lookup_map_replace_ne (c c' : String) (v : α) (h : c' ≠ c) (r : Row α) :
    (r.map (fun p => if p.1 = c then (c, v) else p)).lookup c' = r.lookup c' := by
  induction r with
  | nil => simp
  | cons p r' ih =>
    rcases p with ⟨k, x⟩
    by_cases hk : k = c
    · subst hk
      have hck : (c' == k) = false := by simp [beq_iff_eq, h]
      simp only [List.map_cons, if_true]
      simp only [List.lookup_cons, hck, ih]
    · simp only [List.map_cons, hk, if_false, List.lookup_cons, ih]

theorem lookup_rowSet_self (r : Row α) (c : String) (v : α) :
    (rowSet r c v).lookup c = some v := by
  by_cases hs : (r.lookup c).isSome
  · unfold rowSet
    simp [hs, lookup_map_replace]
  · have hn : r.lookup c = none := Option.not_isSome_iff_eq_none.mp hs
    unfold rowSet
    rw [hn]
    simp only [Option.isSome_none, Bool.false_eq_true, if_false]
    rw [List.lookup_append, hn]
    simp [List.lookup_cons]

theorem lookup_rowSet_ne (r : Row α) (c c' : String) (v : α) (h : c' ≠ c) :
    (rowSet r c v).lookup c' = r.lookup c' := by
  by_cases hs : (r.lookup c).isSome
  · unfold rowSet
    simp only [hs, if_true]
    exact lookup_map_replace_ne c c' v h r
  · have hn : r.lookup c = none := Option.not_isSome_iff_eq_none.mp hs
    unfold rowSet
    rw [hn]
    simp only [Option.isSome_none, Bool.false_eq_true, if_false]
    rw [List.lookup_append]
    have hck : (c' == c) = false := by simp [beq_iff_eq, h]
    simp only [List.lookup_cons, hck, List.lookup_nil]
    cases r.lookup c' <;> simp

theorem keys_rowSet_fresh (r : Row α) (c : String) (v : α)
    (h : r.lookup c = none) :
    (rowSet r c v).map Prod.fst = r.map Prod.fst ++ [c] := by
  unfold rowSet
  simp [h]

theorem sampleDedup_rows_sublist (ss : Option Nat) (key : String)
    (df : DataFrame Str) : (sampleDedup ss key df).rows.Sublist df.rows := by
  cases ss with
  | none => exact List.Sublist.refl _
  | some n =>
    by_cases h : n = 0
    · simp [sampleDedup, h]
    · simp only [sampleDedup, h, if_false]
      exact (List.take_sublist _ _).trans (dropDupsBy_sublist key df.rows [])

/-- Claim C9: when the intermediate column name and the requested
code-switched column name are fresh, the linguistically motivated and
reverse scripts keep every pre-existing column of the retained rows
unchanged and only append their two new columns. -/
theorem C9_only_two_columns_added :
    (∀ (f : Str → Str) (src tgt : String) (lang : Str) (csw : String)
        (ss : Option Nat) (df : DataFrame Str),
      csw ≠ "placeholder_text" →
      (∀ r ∈ df.rows, r.lookup "placeholder_text" = none ∧ r.lookup csw = none) →
      "placeholder_text" ∉ df.cols → csw ∉ df.cols →
      ∃ out : DataFrame Str,
        (Ling.main (totalOracle f) src tgt lang csw ss df).1 = some out ∧
        out.cols = df.cols ++ ["placeholder_text", csw] ∧
        out.rows.map (fun r => r.map Prod.fst) =
          (sampleDedup ss src df).rows.map
            (fun r => r.map Prod.fst ++ ["placeholder_text", csw]) ∧
        ∀ c : String, c ≠ "placeholder_text" → c ≠ csw →
          out.rows.map (fun r => r.lookup c) =
            (sampleDedup ss src df).rows.map (fun r => r.lookup c)) ∧
    (∀ (f : Str → Str) (src tgt : String) (lang : Str) (csw : String)
        (ss : Option Nat) (df : DataFrame Str),
      csw ≠ "masked_target" →
      (∀ r ∈ df.rows, r.lookup "masked_target" = none ∧ r.lookup csw = none) →
      "masked_target" ∉ df.cols → csw ∉ df.cols →
      ∃ out : DataFrame Str,
        (Reverse.main (totalOracle f) src tgt lang csw ss df).1 = some out ∧
        out.cols = df.cols ++ ["masked_target", csw] ∧
        out.rows.map (fun r => r.map Prod.fst) =
          (sampleDedup ss tgt df).rows.map
            (fun r => r.map Prod.fst ++ ["masked_target", csw]) ∧
        ∀ c : String, c ≠ "masked_target" → c ≠ csw →
          out.rows.map (fun r => r.lookup c) =
            (sampleDedup ss tgt df).rows.map (fun r => r.lookup c)) := by
  constructor
  · intro f src tgt lang csw ss df hne hfresh hphc hcswc
    have hfresh0 : ∀ r ∈ (sampleDedup ss src df).rows,
        r.lookup "placeholder_text" = none ∧ r.lookup csw = none :=
      fun r hr => hfresh r ((sampleDedup_rows_sublist ss src df).mem hr)
    rw [Ling.ling_total_run]
    refine ⟨_, rfl, ?_, ?_, ?_⟩
    · show (if csw ∈ (dfSetCol (sampleDedup ss src df) "placeholder_text" _).cols
          then _ else _) = _
      rw [show (dfSetCol (sampleDedup ss src df) "placeholder_text"
            ((sampleDedup ss src df).rows.map
              (fun r => pyStrip (f (Ling.maskPrompt (rowGetS r src)))))).cols =
          df.cols ++ ["placeholder_text"] from ?_]
      · rw [if_neg (by
            simp only [List.mem_append, List.mem_singleton]
            rintro (h | h)
            · exact hcswc h
            · exact hne h)]
        simp
      · show (if "placeholder_text" ∈ (sampleDedup ss src df).cols
            then _ else _) = _
        rw [sampleDedup_cols, if_neg hphc]
    · rw [dfSetCol_rows_map, dfSetCol_rows_map, List.map_map, List.map_map]
      refine List.map_congr_left ?_
      intro r hr
      obtain ⟨hph, hcsw⟩ := hfresh0 r hr
      show ((rowSet (rowSet r "placeholder_text" _) csw _).map Prod.fst) = _
      rw [keys_rowSet_fresh _ csw _ (by
            rw [lookup_rowSet_ne _ _ _ _ hne]; exact hcsw),
        keys_rowSet_fresh _ "placeholder_text" _ hph]
      simp
    · intro c hc1 hc2
      rw [dfSetCol_rows_map, dfSetCol_rows_map, List.map_map, List.map_map]
      refine List.map_congr_left ?_
      intro r hr
      show ((rowSet (rowSet r "placeholder_text" _) csw _).lookup c) = _
      rw [lookup_rowSet_ne _ _ _ _ hc2, lookup_rowSet_ne _ _ _ _ hc1]
  · intro f src tgt lang csw ss df hne hfresh hphc hcswc
    have hfresh0 : ∀ r ∈ (sampleDedup ss tgt df).rows,
        r.lookup "masked_target" = none ∧ r.lookup csw = none :=
      fun r hr => hfresh r ((sampleDedup_rows_sublist ss tgt df).mem hr)
    rw [Reverse.reverse_total_run]
    refine ⟨_, rfl, ?_, ?_, ?_⟩
    · show (if csw ∈ (dfSetCol (sampleDedup ss tgt df) "masked_target" _).cols
          then _ else _) = _
      rw [show (dfSetCol (sampleDedup ss tgt df) "masked_target"
            ((sampleDedup ss tgt df).rows.map
              (fun r => pyStrip (f (Reverse.maskPrompt lang (rowGetS r tgt)))))).cols =
          df.cols ++ ["masked_target"] from ?_]
      · rw [if_neg (by
            simp only [List.mem_append, List.mem_singleton]
            rintro (h | h)
            · exact hcswc h
            · exact hne h)]
        simp
      · show (if "masked_target" ∈ (sampleDedup ss tgt df).cols
            then _ else _) = _
        rw [sampleDedup_cols, if_neg hphc]
    · rw [dfSetCol_rows_map, dfSetCol_rows_map, List.map_map, List.map_map]
      refine List.map_congr_left ?_
      intro r hr
      obtain ⟨hph, hcsw⟩ := hfresh0 r hr
      show ((rowSet (rowSet r "masked_target" _) csw _).map Prod.fst) = _
      rw [keys_rowSet_fresh _ csw _ (by
            rw [lookup_rowSet_ne _ _ _ _ hne]; exact hcsw),
        keys_rowSet_fresh _ "masked_target" _ hph]
      simp
    · intro c hc1 hc2
      rw [dfSetCol_rows_map, dfSetCol_rows_map, List.map_map, List.map_map]
      refine List.map_congr_left ?_
      intro r hr
      show ((rowSet (rowSet r "masked_target" _) csw _).lookup c) = _
      rw [lookup_rowSet_ne _ _ _ _ hc2, lookup_rowSet_ne _ _ _ _ hc1]

/-- Concrete instantiation of `C9_only_two_columns_added` on the one-row
frame. -/
theorem C9_only_two_columns_added_witness :
    ∃ out : DataFrame Str,
      (Ling.main (totalOracle wOracle) "src" "tgt" ['L'] "csw" none wDF).1 = some out ∧
      out.cols = wDF.cols ++ ["placeholder_text", "csw"] ∧
      out.rows.map (fun r => r.map Prod.fst) =
        (sampleDedup none "src" wDF).rows.map
          (fun r => r.map Prod.fst ++ ["placeholder_text", "csw"]) ∧
      ∀ c : String, c ≠ "placeholder_text" → c ≠ "csw" →
        out.rows.map (fun r => r.lookup c) =
          (sampleDedup none "src" wDF).rows.map (fun r => r.lookup c) :=
  C9_only_two_columns_added.1 wOracle "src" "tgt" ['L'] "csw" none wDF
    (by decide) (by decide) (by decide) (by decide)

/-! ### Claim C7: XNLI per-language extraction -/

theorem xnli_addLangStep_rows (lp : Str × String) (df : DataFrame PyObj)
    (h1 : lp.2 ++ "_premise" ≠ "hypothesis") :
    (xnli_addLangStep df lp).rows = df.rows.map (fun r =>
      rowSet (rowSet r (lp.2 ++ "_premise")
          (xnli_extract lp.1 (rowGetObj r "premise")))
        (lp.2 ++ "_hypothesis") (xnli_extract lp.1 (rowGetObj r "hypothesis"))) := by
  simp only [xnli_addLangStep]
  rw [dfSetCol_rows_map, dfSetCol_rows_map, List.map_map]
  refine List.map_congr_left ?_
  intro r hr
  show rowSet (rowSet r _ _) _
      (xnli_extract lp.1 (rowGetObj (rowSet r _ _) "hypothesis")) = _
  congr 2
  unfold rowGetObj
  rw [lookup_rowSet_ne _ _ _ _ (fun hh => h1 hh.symm)]

theorem colValues_addLangStep_other (lp : Str × String) (df : DataFrame PyObj)
    (c : String) (hc1 : c ≠ lp.2 ++ "_premise") (hc2 : c ≠ lp.2 ++ "_hypothesis")
    (h1 : lp.2 ++ "_premise" ≠ "hypothesis") :
    colValues (xnli_addLangStep df lp) c = colValues df c := by
  unfold colValues
  rw [xnli_addLangStep_rows lp df h1, List.map_map]
  refine List.map_congr_left ?_
  intro r hr
  show (rowSet (rowSet r _ _) _ _).lookup c = _
  rw [lookup_rowSet_ne _ _ _ _ hc2, lookup_rowSet_ne _ _ _ _ hc1]

theorem colValues_addLangStep_premise (lp : Str × String) (df : DataFrame PyObj)
    (h1 : lp.2 ++ "_premise" ≠ "hypothesis")
    (h2 : lp.2 ++ "_premise" ≠ lp.2 ++ "_hypothesis") :
    colValues (xnli_addLangStep df lp) (lp.2 ++ "_premise") =
      df.rows.map (fun r => some (xnli_extract lp.1 (rowGetObj r "premise"))) := by
  unfold colValues
  rw [xnli_addLangStep_rows lp df h1, List.map_map]
  refine List.map_congr_left ?_
  intro r hr
  show (rowSet (rowSet r _ _) _ _).lookup _ = _
  rw [lookup_rowSet_ne _ _ _ _ h2, lookup_rowSet_self]

theorem colValues_addLangStep_hyp (lp : Str × String) (df : DataFrame PyObj)
    (h1 : lp.2 ++ "_premise" ≠ "hypothesis") :
    colValues (xnli_addLangStep df lp) (lp.2 ++ "_hypothesis") =
      df.rows.map (fun r => some (xnli_extract lp.1 (rowGetObj r "hypothesis"))) := by
  unfold colValues
  rw [xnli_addLangStep_rows lp df h1, List.map_map]
  refine List.map_congr_left ?_
  intro r hr
  show (rowSet (rowSet r _ _) _ _).lookup _ = _
  rw [lookup_rowSet_self]

theorem colValues_fold_untouched :
    ∀ (lps : List (Str × String)) (d : DataFrame PyObj) (c : String),
      (∀ q ∈ lps, c ≠ q.2 ++ "_premise" ∧ c ≠ q.2 ++ "_hypothesis" ∧
        q.2 ++ "_premise" ≠ "hypothesis") →
      colValues (List.foldl xnli_addLangStep d lps) c = colValues d c := by
  intro lps
  induction lps with
  | nil => intro d c _; rfl
  | cons q rest ih =>
    intro d c h
    rw [List.foldl_cons,
      ih _ c (fun q' hq' => h q' (List.mem_cons_of_mem _ hq'))]
    obtain ⟨h1, h2, h3⟩ := h q (List.mem_cons_self _ _)
    exact colValues_addLangStep_other q d c h1 h2 h3

theorem mapExtract_addLangStep (q : Str × String) (df : DataFrame PyObj)
    (lang : Str) (col : String)
    (hcol1 : col ≠ q.2 ++ "_premise") (hcol2 : col ≠ q.2 ++ "_hypothesis")
    (h1 : q.2 ++ "_premise" ≠ "hypothesis") :
    (xnli_addLangStep df q).rows.map
        (fun r => some (xnli_extract lang (rowGetObj r col))) =
      df.rows.map (fun r => some (xnli_extract lang (rowGetObj r col))) := by
  rw [xnli_addLangStep_rows q df h1, List.map_map]
  refine List.map_congr_left ?_
  intro r hr
  show some (xnli_extract lang (rowGetObj (rowSet (rowSet r _ _) _ _) col)) = _
  unfold rowGetObj
  rw [lookup_rowSet_ne _ _ _ _ hcol2, lookup_rowSet_ne _ _ _ _ hcol1]

theorem addLangCols_fold_spec :
    ∀ (lps : List (Str × String)) (df : DataFrame PyObj),
      (∀ p ∈ lps, p.2 ++ "_premise" ≠ "premise" ∧
        p.2 ++ "_premise" ≠ "hypothesis" ∧
        p.2 ++ "_hypothesis" ≠ "premise" ∧
        p.2 ++ "_hypothesis" ≠ "hypothesis" ∧
        p.2 ++ "_premise" ≠ p.2 ++ "_hypothesis") →
      lps.Pairwise (fun p q =>
        q.2 ++ "_premise" ≠ p.2 ++ "_premise" ∧
        q.2 ++ "_premise" ≠ p.2 ++ "_hypothesis" ∧
        q.2 ++ "_hypothesis" ≠ p.2 ++ "_premise" ∧
        q.2 ++ "_hypothesis" ≠ p.2 ++ "_hypothesis") →
      ∀ lp ∈ lps,
        colValues (List.foldl xnli_addLangStep df lps) (lp.2 ++ "_premise") =
          df.rows.map (fun r => some (xnli_extract lp.1 (rowGetObj r "premise"))) ∧
        colValues (List.foldl xnli_addLangStep df lps) (lp.2 ++ "_hypothesis") =
          df.rows.map (fun r => some (xnli_extract lp.1 (rowGetObj r "hypothesis"))) := by
  intro lps
  induction lps with
  | nil => intro df _ _ lp hlp; simp at hlp
  | cons q rest ih =>
    intro df hnames hpair lp hlp
    rw [List.foldl_cons]
    obtain ⟨hq1, hq2, hq3, hq4, hq5⟩ := hnames q (List.mem_cons_self _ _)
    have hrest := (List.pairwise_cons.mp hpair).1
    rcases List.mem_cons.mp hlp with rfl | hlp'
    · constructor
      · rw [colValues_fold_untouched rest _ _ (fun q' hq' => by
          obtain ⟨ha, _, hc, _⟩ := hrest q' hq'
          obtain ⟨_, hb', _⟩ := hnames q' (List.mem_cons_of_mem _ hq')
          exact ⟨Ne.symm ha, Ne.symm hc, hb'⟩)]
        exact colValues_addLangStep_premise lp df hq2 hq5
      · rw [colValues_fold_untouched rest _ _ (fun q' hq' => by
          obtain ⟨_, hb, _, hd⟩ := hrest q' hq'
          obtain ⟨_, hb', _⟩ := hnames q' (List.mem_cons_of_mem _ hq')
          exact ⟨Ne.symm hb, Ne.symm hd, hb'⟩)]
        exact colValues_addLangStep_hyp lp df hq2
    · obtain ⟨ih1, ih2⟩ := ih (xnli_addLangStep df q)
        (fun p hp => hnames p (List.mem_cons_of_mem _ hp))
        (List.pairwise_cons.mp hpair).2 lp hlp'
      constructor
      · rw [ih1, mapExtract_addLangStep q df lp.1 "premise"
          (Ne.symm hq1) (Ne.symm hq3) hq2]
      · rw [ih2, mapExtract_addLangStep q df lp.1 "hypothesis"
          (Ne.symm hq2) (Ne.symm hq4) hq2]

/-- Claim C7: the extraction loop adds, for every language of the map,
`{prefix}_premise` and `{prefix}_hypothesis` columns whose row values
are exactly `d.get(lang, None) if isinstance(d, dict) else None` applied
to the (processed) `premise` and `hypothesis` fields; the extraction is
a total function — a dictionary yields the translation stored under the
language key (`None` when absent), and any non-dictionary yields
`None`. -/
theorem C7_xnli_language_extraction :
    (∀ (df : DataFrame PyObj), ∀ lp ∈ language_map,
      colValues (xnli_addLangCols df) (lp.2 ++ "_premise") =
        df.rows.map (fun r => some (xnli_extract lp.1 (rowGetObj r "premise"))) ∧
      colValues (xnli_addLangCols df) (lp.2 ++ "_hypothesis") =
        df.rows.map (fun r => some (xnli_extract lp.1 (rowGetObj r "hypothesis")))) ∧
    (∀ lang es, xnli_extract lang (PyObj.dict es) =
      (es.lookup lang).getD PyObj.noneV) ∧
    (∀ lang s, xnli_extract lang (PyObj.str s) = PyObj.noneV) ∧
    (∀ lang xs, xnli_extract lang (PyObj.list xs) = PyObj.noneV) ∧
    (∀ lang, xnli_extract lang PyObj.noneV = PyObj.noneV) := by
  refine ⟨?_, fun lang es => rfl, fun lang s => rfl, fun lang xs => rfl,
    fun lang => rfl⟩
  intro df lp hlp
  exact addLangCols_fold_spec language_map df (by decide) (by decide) lp hlp

/-- Concrete instantiation of `C7_xnli_language_extraction` at the
French pair of the language map on a one-row frame. -/
theorem C7_xnli_language_extraction_witness :
    colValues (xnli_addLangCols wXDF) ("fra" ++ "_premise") =
      wXDF.rows.map (fun r => some (xnli_extract "fr".data (rowGetObj r "premise"))) ∧
    colValues (xnli_addLangCols wXDF) ("fra" ++ "_hypothesis") =
      wXDF.rows.map (fun r => some (xnli_extract "fr".data (rowGetObj r "hypothesis"))) :=
  C7_xnli_language_extraction.1 wXDF ("fr".data, "fra") (by decide)

/-! ### Claim C6: the Belebele combination -/

theorem strLe_total : ∀ a b : Str, strLe a b = true ∨ strLe b a = true := by
  intro a
  induction a with
  | nil => intro b; left; rfl
  | cons x as ih =>
    intro b
    cases b with
    | nil => right; rfl
    | cons y bs =>
      rcases Nat.lt_trichotomy x.toNat y.toNat with h | h | h
      · left; simp [strLe, h]
      · have h1 : ¬ x.toNat < y.toNat := by omega
        have h2 : ¬ y.toNat < x.toNat := by omega
        rcases ih bs with ha | hb
        · left; simp [strLe, h1, h2, ha]
        · right; simp [strLe, h1, h2, hb]
      · right; simp [strLe, h]

theorem strLe_trans : ∀ a b c : Str,
    strLe a b = true → strLe b c = true → strLe a c = true := by
  intro a
  induction a with
  | nil => intro b c _ _; rfl
  | cons x as ih =>
    intro b c hab hbc
    cases b with
    | nil => simp [strLe] at hab
    | cons y bs =>
      cases c with
      | nil => simp [strLe] at hbc
      | cons z cs =>
        simp only [strLe] at hab hbc ⊢
        by_cases hxy : x.toNat < y.toNat
        · by_cases hyz : y.toNat < z.toNat
          · simp [show x.toNat < z.toNat by omega]
          · simp only [hyz, if_false] at hbc
            by_cases hzy : z.toNat < y.toNat
            · simp [hzy] at hbc
            · simp [show x.toNat < z.toNat by omega]
        · simp only [hxy, if_false] at hab
          by_cases hyx : y.toNat < x.toNat
          · simp [hyx] at hab
          · simp only [hyx, if_false] at hab
            by_cases hyz : y.toNat < z.toNat
            · simp [show x.toNat < z.toNat by omega]
            · simp only [hyz, if_false] at hbc
              by_cases hzy : z.toNat < y.toNat
              · simp [hzy] at hbc
              · simp only [hzy, if_false] at hbc
                have hxz : ¬ x.toNat < z.toNat := by omega
                have hzx : ¬ z.toNat < x.toNat := by omega
                simp only [hxz, hzx, if_false]
                exact ih bs cs hab hbc

theorem sortByLink_perm (recs : List BRec) : (sortByLink recs).Perm recs :=
  List.perm_insertionSort linkLe recs

theorem sortByLink_sorted (recs : List BRec) :
    List.Sorted linkLe (sortByLink recs) := by
  haveI : IsTotal BRec linkLe :=
    ⟨fun a b => strLe_total a.link b.link⟩
  haveI : IsTrans BRec linkLe :=
    ⟨fun a b c => strLe_trans a.link b.link c.link⟩
  exact List.sorted_insertionSort linkLe recs

theorem range_map_getD (l : List (Row α)) :
    (List.range l.length).map (fun i => l.getD i []) = l := by
  induction l with
  | nil => rfl
  | cons r rs ih =>
    show (List.range (rs.length + 1)).map _ = _
    rw [List.range_succ_eq_map, List.map_cons, List.map_map]
    refine congrArg₂ _ rfl ?_
    exact ih

theorem range_map_getD_zip :
    ∀ (l1 l2 : List (Row α)), l1.length = l2.length →
      (List.range l1.length).map (fun i => l1.getD i [] ++ l2.getD i []) =
        List.zipWith (fun a b => a ++ b) l1 l2 := by
  intro l1
  induction l1 with
  | nil => intro l2 _; rfl
  | cons r rs ih =>
    intro l2 h
    cases l2 with
    | nil => simp at h
    | cons s ss =>
      show (List.range (rs.length + 1)).map _ = _
      rw [List.range_succ_eq_map, List.map_cons, List.map_map,
        List.zipWith_cons_cons]
      refine congrArg₂ _ rfl ?_
      exact ih ss (by simpa using h)

theorem concat2_emptyDF_rows (d : DataFrame α) :
    (concat2 emptyDF d).rows = d.rows := by
  show (List.range (max (List.length ([] : List (Row α))) d.rows.length)).map _ = _
  rw [show max (List.length ([] : List (Row α))) d.rows.length = d.rows.length
    from by simp]
  exact range_map_getD d.rows

theorem concat2_rows_eq_zipWith (d1 d2 : DataFrame α)
    (h : d1.rows.length = d2.rows.length) :
    (concat2 d1 d2).rows = List.zipWith (fun a b => a ++ b) d1.rows d2.rows := by
  show (List.range (max d1.rows.length d2.rows.length)).map _ = _
  rw [show max d1.rows.length d2.rows.length = d1.rows.length from by omega]
  exact range_map_getD_zip d1.rows d2.rows h

theorem map_lookup_zipWith_left (c : String) :
    ∀ (l1 l2 : List (Row Str)), l1.length = l2.length →
      (∀ r ∈ l2, r.lookup c = none) →
      (List.zipWith (fun a b => a ++ b) l1 l2).map (fun r => r.lookup c) =
        l1.map (fun r => r.lookup c) := by
  intro l1
  induction l1 with
  | nil =>
    intro l2 h _
    cases l2 with
    | nil => rfl
    | cons s ss => simp at h
  | cons r rs ih =>
    intro l2 h hnone
    cases l2 with
    | nil => simp at h
    | cons s ss =>
      rw [List.zipWith_cons_cons, List.map_cons, List.map_cons]
      refine congrArg₂ _ ?_ ?_
      · rw [List.lookup_append, hnone s (List.mem_cons_self _ _)]
        cases r.lookup c <;> rfl
      · exact ih ss (by simpa using h)
          (fun r' hr' => hnone r' (List.mem_cons_of_mem _ hr'))

theorem map_lookup_zipWith_right (c : String) :
    ∀ (l1 l2 : List (Row Str)), l1.length = l2.length →
      (∀ r ∈ l1, r.lookup c = none) →
      (List.zipWith (fun a b => a ++ b) l1 l2).map (fun r => r.lookup c) =
        l2.map (fun r => r.lookup c) := by
  intro l1
  induction l1 with
  | nil =>
    intro l2 h _
    cases l2 with
    | nil => rfl
    | cons s ss => simp at h
  | cons r rs ih =>
    intro l2 h hnone
    cases l2 with
    | nil => simp at h
    | cons s ss =>
      rw [List.zipWith_cons_cons, List.map_cons, List.map_cons]
      refine congrArg₂ _ ?_ ?_
      · rw [List.lookup_append, hnone r (List.mem_cons_self _ _)]
        rfl
      · exact ih ss (by simpa using h)
          (fun r' hr' => hnone r' (List.mem_cons_of_mem _ hr'))

theorem mem_map_lookup_none {β : Type} (g : β → Row Str) (l : List β) (c : String)
    (h : ∀ b : β, (g b).lookup c = none) :
    ∀ row ∈ l.map g, row.lookup c = none := by
  intro row hrow
  rcases List.mem_map.mp hrow with ⟨b, _, rfl⟩
  exact h b

theorem map_lookup_of_forall {β : Type} (g : β → Row Str) (l : List β)
    (c : String) (v : β → Str) (h : ∀ b, (g b).lookup c = some (v b)) :
    (l.map g).map (fun r => r.lookup c) = l.map (fun b => some (v b)) := by
  rw [List.map_map]
  exact List.map_congr_left (fun b _ => h b)

theorem beleFrame_rows_length (subset : String) (recs : List BRec) :
    (beleFrame subset recs).rows.length = recs.length := by
  simp [beleFrame, (sortByLink_perm recs).length_eq]

theorem beleFrameEng_rows_length (subset : String) (recs : List BRec) :
    (beleFrameEng subset recs).rows.length = recs.length := by
  simp [beleFrameEng, (sortByLink_perm recs).length_eq]

theorem belebele_combined_rows (eng fra deu arb zho : List BRec)
    (hf : fra.length = eng.length) (hd : deu.length = eng.length)
    (ha : arb.length = eng.length) (hz : zho.length = eng.length) :
    (belebele_combined eng fra deu arb zho).rows =
      List.zipWith (fun a b => a ++ b)
        (List.zipWith (fun a b => a ++ b)
          (List.zipWith (fun a b => a ++ b)
            (List.zipWith (fun a b => a ++ b)
              (beleFrameEng "eng_Latn" eng).rows (beleFrame "fra_Latn" fra).rows)
            (beleFrame "deu_Latn" deu).rows)
          (beleFrame "arb_Arab" arb).rows)
        (beleFrame "zho_Hans" zho).rows := by
  have h0 : (concat2 emptyDF (beleFrameEng "eng_Latn" eng)).rows =
      (beleFrameEng "eng_Latn" eng).rows := concat2_emptyDF_rows _
  have l0 : (concat2 emptyDF (beleFrameEng "eng_Latn" eng)).rows.length =
      eng.length := by rw [h0, beleFrameEng_rows_length]
  have h1 : (concat2 (concat2 emptyDF (beleFrameEng "eng_Latn" eng))
      (beleFrame "fra_Latn" fra)).rows =
      List.zipWith (fun a b => a ++ b)
        (concat2 emptyDF (beleFrameEng "eng_Latn" eng)).rows
        (beleFrame "fra_Latn" fra).rows :=
    concat2_rows_eq_zipWith _ _ (by rw [l0, beleFrame_rows_length, hf])
  have l1 : (concat2 (concat2 emptyDF (beleFrameEng "eng_Latn" eng))
      (beleFrame "fra_Latn" fra)).rows.length = eng.length := by
    rw [h1, List.length_zipWith, l0, beleFrame_rows_length, hf, Nat.min_self]
  have h2 : (concat2 (concat2 (concat2 emptyDF (beleFrameEng "eng_Latn" eng))
      (beleFrame "fra_Latn" fra)) (beleFrame "deu_Latn" deu)).rows =
      List.zipWith (fun a b => a ++ b)
        (concat2 (concat2 emptyDF (beleFrameEng "eng_Latn" eng))
          (beleFrame "fra_Latn" fra)).rows
        (beleFrame "deu_Latn" deu).rows :=
    concat2_rows_eq_zipWith _ _ (by rw [l1, beleFrame_rows_length, hd])
  have l2 : (concat2 (concat2 (concat2 emptyDF (beleFrameEng "eng_Latn" eng))
      (beleFrame "fra_Latn" fra)) (beleFrame "deu_Latn" deu)).rows.length =
      eng.length := by
    rw [h2, List.length_zipWith, l1, beleFrame_rows_length, hd, Nat.min_self]
  have h3 : (concat2 (concat2 (concat2 (concat2 emptyDF
      (beleFrameEng "eng_Latn" eng)) (beleFrame "fra_Latn" fra))
      (beleFrame "deu_Latn" deu)) (beleFrame "arb_Arab" arb)).rows =
      List.zipWith (fun a b => a ++ b)
        (concat2 (concat2 (concat2 emptyDF (beleFrameEng "eng_Latn" eng))
          (beleFrame "fra_Latn" fra)) (beleFrame "deu_Latn" deu)).rows
        (beleFrame "arb_Arab" arb).rows :=
    concat2_rows_eq_zipWith _ _ (by rw [l2, beleFrame_rows_length, ha])
  have l3 : (concat2 (concat2 (concat2 (concat2 emptyDF
      (beleFrameEng "eng_Latn" eng)) (beleFrame "fra_Latn" fra))
      (beleFrame "deu_Latn" deu)) (beleFrame "arb_Arab" arb)).rows.length =
      eng.length := by
    rw [h3, List.length_zipWith, l2, beleFrame_rows_length, ha, Nat.min_self]
  show (concat2 _ _).rows = _
  rw [concat2_rows_eq_zipWith _ _ (by rw [l3, beleFrame_rows_length, hz]),
    h3, h2, h1, h0]

theorem zipWith_append_lookup_none (c : String) :
    ∀ (l1 l2 : List (Row Str)),
      (∀ r ∈ l1, r.lookup c = none) → (∀ r ∈ l2, r.lookup c = none) →
      ∀ r ∈ List.zipWith (fun a b => a ++ b) l1 l2, r.lookup c = none := by
  intro l1
  induction l1 with
  | nil => intro l2 _ _ r hr; simp at hr
  | cons a as ih =>
    intro l2 h1 h2 r hr
    cases l2 with
    | nil => simp at hr
    | cons b bs =>
      rw [List.zipWith_cons_cons] at hr
      rcases List.mem_cons.mp hr with rfl | hr'
      · rw [List.lookup_append, h1 a (List.mem_cons_self _ _),
          h2 b (List.mem_cons_self _ _)]
        rfl
      · exact ih bs (fun r' h => h1 r' (List.mem_cons_of_mem _ h))
          (fun r' h => h2 r' (List.mem_cons_of_mem _ h)) r hr'

theorem belebele_colValues_eng (eng fra deu arb zho : List BRec)
    (hf : fra.length = eng.length) (hd : deu.length = eng.length)
    (ha : arb.length = eng.length) (hz : zho.length = eng.length)
    (c : String) (v : BRec → Str)
    (hF : ∀ row ∈ (beleFrame "fra_Latn" fra).rows, row.lookup c = none)
    (hD : ∀ row ∈ (beleFrame "deu_Latn" deu).rows, row.lookup c = none)
    (hA : ∀ row ∈ (beleFrame "arb_Arab" arb).rows, row.lookup c = none)
    (hZ : ∀ row ∈ (beleFrame "zho_Hans" zho).rows, row.lookup c = none)
    (hE : (beleFrameEng "eng_Latn" eng).rows.map (fun r => r.lookup c) =
      (sortByLink eng).map (fun b => some (v b))) :
    colValues (belebele_combined eng fra deu arb zho) c =
      (sortByLink eng).map (fun b => some (v b)) := by
  have lE := beleFrameEng_rows_length "eng_Latn" eng
  have lF := beleFrame_rows_length "fra_Latn" fra
  have lD := beleFrame_rows_length "deu_Latn" deu
  have lA := beleFrame_rows_length "arb_Arab" arb
  have lZ := beleFrame_rows_length "zho_Hans" zho
  show (belebele_combined eng fra deu arb zho).rows.map (fun r => r.lookup c) = _
  rw [belebele_combined_rows eng fra deu arb zho hf hd ha hz,
    map_lookup_zipWith_left c _ _ (by
      simp only [List.length_zipWith, lE, lF, lD, lA, lZ, hf, hd, ha, hz]
      omega) hZ,
    map_lookup_zipWith_left c _ _ (by
      simp only [List.length_zipWith, lE, lF, lD, lA, hf, hd, ha]
      omega) hA,
    map_lookup_zipWith_left c _ _ (by
      simp only [List.length_zipWith, lE, lF, lD, hf, hd]
      omega) hD,
    map_lookup_zipWith_left c _ _ (by rw [lE, lF, hf]) hF]
  exact hE

theorem belebele_colValues_fra (eng fra deu arb zho : List BRec)
    (hf : fra.length = eng.length) (hd : deu.length = eng.length)
    (ha : arb.length = eng.length) (hz : zho.length = eng.length)
    (c : String) (v : BRec → Str)
    (hE : ∀ row ∈ (beleFrameEng "eng_Latn" eng).rows, row.lookup c = none)
    (hD : ∀ row ∈ (beleFrame "deu_Latn" deu).rows, row.lookup c = none)
    (hA : ∀ row ∈ (beleFrame "arb_Arab" arb).rows, row.lookup c = none)
    (hZ : ∀ row ∈ (beleFrame "zho_Hans" zho).rows, row.lookup c = none)
    (hF : (beleFrame "fra_Latn" fra).rows.map (fun r => r.lookup c) =
      (sortByLink fra).map (fun b => some (v b))) :
    colValues (belebele_combined eng fra deu arb zho) c =
      (sortByLink fra).map (fun b => some (v b)) := by
  have lE := beleFrameEng_rows_length "eng_Latn" eng
  have lF := beleFrame_rows_length "fra_Latn" fra
  have lD := beleFrame_rows_length "deu_Latn" deu
  have lA := beleFrame_rows_length "arb_Arab" arb
  have lZ := beleFrame_rows_length "zho_Hans" zho
  show (belebele_combined eng fra deu arb zho).rows.map (fun r => r.lookup c) = _
  rw [belebele_combined_rows eng fra deu arb zho hf hd ha hz,
    map_lookup_zipWith_left c _ _ (by
      simp only [List.length_zipWith, lE, lF, lD, lA, lZ, hf, hd, ha, hz]
      omega) hZ,
    map_lookup_zipWith_left c _ _ (by
      simp only [List.length_zipWith, lE, lF, lD, lA, hf, hd, ha]
      omega) hA,
    map_lookup_zipWith_left c _ _ (by
      simp only [List.length_zipWith, lE, lF, lD, hf, hd]
      omega) hD,
    map_lookup_zipWith_right c _ _ (by rw [lE, lF, hf]) hE]
  exact hF

theorem belebele_colValues_deu (eng fra deu arb zho : List BRec)
    (hf : fra.length = eng.length) (hd : deu.length = eng.length)
    (ha : arb.length = eng.length) (hz : zho.length = eng.length)
    (c : String) (v : BRec → Str)
    (hE : ∀ row ∈ (beleFrameEng "eng_Latn" eng).rows, row.lookup c = none)
    (hF : ∀ row ∈ (beleFrame "fra_Latn" fra).rows, row.lookup c = none)
    (hA : ∀ row ∈ (beleFrame "arb_Arab" arb).rows, row.lookup c = none)
    (hZ : ∀ row ∈ (beleFrame "zho_Hans" zho).rows, row.lookup c = none)
    (hD : (beleFrame "deu_Latn" deu).rows.map (fun r => r.lookup c) =
      (sortByLink deu).map (fun b => some (v b))) :
    colValues (belebele_combined eng fra deu arb zho) c =
      (sortByLink deu).map (fun b => some (v b)) := by
  have lE := beleFrameEng_rows_length "eng_Latn" eng
  have lF := beleFrame_rows_length "fra_Latn" fra
  have lD := beleFrame_rows_length "deu_Latn" deu
  have lA := beleFrame_rows_length "arb_Arab" arb
  have lZ := beleFrame_rows_length "zho_Hans" zho
  show (belebele_combined eng fra deu arb zho).rows.map (fun r => r.lookup c) = _
  rw [belebele_combined_rows eng fra deu arb zho hf hd ha hz,
    map_lookup_zipWith_left c _ _ (by
      simp only [List.length_zipWith, lE, lF, lD, lA, lZ, hf, hd, ha, hz]
      omega) hZ,
    map_lookup_zipWith_left c _ _ (by
      simp only [List.length_zipWith, lE, lF, lD, lA, hf, hd, ha]
      omega) hA,
    map_lookup_zipWith_right c _ _ (by
      simp only [List.length_zipWith, lE, lF, lD, hf, hd]
      omega) (zipWith_append_lookup_none c _ _ hE hF)]
  exact hD

theorem belebele_colValues_arb (eng fra deu arb zho : List BRec)
    (hf : fra.length = eng.length) (hd : deu.length = eng.length)
    (ha : arb.length = eng.length) (hz : zho.length = eng.length)
    (c : String) (v : BRec → Str)
    (hE : ∀ row ∈ (beleFrameEng "eng_Latn" eng).rows, row.lookup c = none)
    (hF : ∀ row ∈ (beleFrame "fra_Latn" fra).rows, row.lookup c = none)
    (hD : ∀ row ∈ (beleFrame "deu_Latn" deu).rows, row.lookup c = none)
    (hZ : ∀ row ∈ (beleFrame "zho_Hans" zho).rows, row.lookup c = none)
    (hA : (beleFrame "arb_Arab" arb).rows.map (fun r => r.lookup c) =
      (sortByLink arb).map (fun b => some (v b))) :
    colValues (belebele_combined eng fra deu arb zho) c =
      (sortByLink arb).map (fun b => some (v b)) := by
  have lE := beleFrameEng_rows_length "eng_Latn" eng
  have lF := beleFrame_rows_length "fra_Latn" fra
  have lD := beleFrame_rows_length "deu_Latn" deu
  have lA := beleFrame_rows_length "arb_Arab" arb
  have lZ := beleFrame_rows_length "zho_Hans" zho
  show (belebele_combined eng fra deu arb zho).rows.map (fun r => r.lookup c) = _
  rw [belebele_combined_rows eng fra deu arb zho hf hd ha hz,
    map_lookup_zipWith_left c _ _ (by
      simp only [List.length_zipWith, lE, lF, lD, lA, lZ, hf, hd, ha, hz]
      omega) hZ,
    map_lookup_zipWith_right c _ _ (by
      simp only [List.length_zipWith, lE, lF, lD, lA, hf, hd, ha]
      omega) (zipWith_append_lookup_none c _ _
        (zipWith_append_lookup_none c _ _ hE hF) hD)]
  exact hA

theorem belebele_colValues_zho (eng fra deu arb zho : List BRec)
    (hf : fra.length = eng.length) (hd : deu.length = eng.length)
    (ha : arb.length = eng.length) (hz : zho.length = eng.length)
    (c : String) (v : BRec → Str)
    (hE : ∀ row ∈ (beleFrameEng "eng_Latn" eng).rows, row.lookup c = none)
    (hF : ∀ row ∈ (beleFrame "fra_Latn" fra).rows, row.lookup c = none)
    (hD : ∀ row ∈ (beleFrame "deu_Latn" deu).rows, row.lookup c = none)
    (hA : ∀ row ∈ (beleFrame "arb_Arab" arb).rows, row.lookup c = none)
    (hZ : (beleFrame "zho_Hans" zho).rows.map (fun r => r.lookup c) =
      (sortByLink zho).map (fun b => some (v b))) :
    colValues (belebele_combined eng fra deu arb zho) c =
      (sortByLink zho).map (fun b => some (v b)) := by
  have lE := beleFrameEng_rows_length "eng_Latn" eng
  have lF := beleFrame_rows_length "fra_Latn" fra
  have lD := beleFrame_rows_length "deu_Latn" deu
  have lA := beleFrame_rows_length "arb_Arab" arb
  have lZ := beleFrame_rows_length "zho_Hans" zho
  show (belebele_combined eng fra deu arb zho).rows.map (fun r => r.lookup c) = _
  rw [belebele_combined_rows eng fra deu arb zho hf hd ha hz,
    map_lookup_zipWith_right c _ _ (by
      simp only [List.length_zipWith, lE, lF, lD, lA, lZ, hf, hd, ha, hz]
      omega) (zipWith_append_lookup_none c _ _
        (zipWith_append_lookup_none c _ _
          (zipWith_append_lookup_none c _ _ hE hF) hD) hA)]
  exact hZ

/-- C6: the Belebele combination places, for each of the five subsets
(`eng`, `fra`, `deu`, `arb`, `zho`), the columns
`{prefix}_flores_passage` and `{prefix}_question` whose row `i` is the
`i`-th record of that subset sorted ascending by `link`; only the
English subset additionally contributes `mc_answer1`–`mc_answer4` and
`correct_answer_num`; `sortByLink` is a permutation of the input sorted
by `link`, so equal positions align the languages by sorted link. -/
theorem C6_belebele_alignment (eng fra deu arb zho : List BRec)
    (hf : fra.length = eng.length) (hd : deu.length = eng.length)
    (ha : arb.length = eng.length) (hz : zho.length = eng.length) :
    (belebele_combined eng fra deu arb zho).cols =
      ["mc_answer1", "mc_answer2", "mc_answer3", "mc_answer4",
       "correct_answer_num", "eng_flores_passage", "eng_question",
       "fra_flores_passage", "fra_question", "deu_flores_passage",
       "deu_question", "arb_flores_passage", "arb_question",
       "zho_flores_passage", "zho_question"] ∧
    colValues (belebele_combined eng fra deu arb zho) "mc_answer1" =
      (sortByLink eng).map (fun b => some b.mc_answer1) ∧
    colValues (belebele_combined eng fra deu arb zho) "mc_answer2" =
      (sortByLink eng).map (fun b => some b.mc_answer2) ∧
    colValues (belebele_combined eng fra deu arb zho) "mc_answer3" =
      (sortByLink eng).map (fun b => some b.mc_answer3) ∧
    colValues (belebele_combined eng fra deu arb zho) "mc_answer4" =
      (sortByLink eng).map (fun b => some b.mc_answer4) ∧
    colValues (belebele_combined eng fra deu arb zho) "correct_answer_num" =
      (sortByLink eng).map (fun b => some b.correct_answer_num) ∧
    colValues (belebele_combined eng fra deu arb zho) "eng_flores_passage" =
      (sortByLink eng).map (fun b => some b.flores_passage) ∧
    colValues (belebele_combined eng fra deu arb zho) "eng_question" =
      (sortByLink eng).map (fun b => some b.question) ∧
    colValues (belebele_combined eng fra deu arb zho) "fra_flores_passage" =
      (sortByLink fra).map (fun b => some b.flores_passage) ∧
    colValues (belebele_combined eng fra deu arb zho) "fra_question" =
      (sortByLink fra).map (fun b => some b.question) ∧
    colValues (belebele_combined eng fra deu arb zho) "deu_flores_passage" =
      (sortByLink deu).map (fun b => some b.flores_passage) ∧
    colValues (belebele_combined eng fra deu arb zho) "deu_question" =
      (sortByLink deu).map (fun b => some b.question) ∧
    colValues (belebele_combined eng fra deu arb zho) "arb_flores_passage" =
      (sortByLink arb).map (fun b => some b.flores_passage) ∧
    colValues (belebele_combined eng fra deu arb zho) "arb_question" =
      (sortByLink arb).map (fun b => some b.question) ∧
    colValues (belebele_combined eng fra deu arb zho) "zho_flores_passage" =
      (sortByLink zho).map (fun b => some b.flores_passage) ∧
    colValues (belebele_combined eng fra deu arb zho) "zho_question" =
      (sortByLink zho).map (fun b => some b.question) ∧
    (∀ recs : List BRec,
      (sortByLink recs).Perm recs ∧ List.Sorted linkLe (sortByLink recs)) := by
  refine ⟨rfl, ?_, ?_, ?_, ?_, ?_, ?_, ?_, ?_, ?_, ?_, ?_, ?_, ?_, ?_, ?_,
    fun recs => ⟨sortByLink_perm recs, sortByLink_sorted recs⟩⟩
  · exact belebele_colValues_eng eng fra deu arb zho hf hd ha hz
      "mc_answer1" (fun b => b.mc_answer1)
      (mem_map_lookup_none _ _ _ (fun b => rfl))
      (mem_map_lookup_none _ _ _ (fun b => rfl))
      (mem_map_lookup_none _ _ _ (fun b => rfl))
      (mem_map_lookup_none _ _ _ (fun b => rfl))
      (map_lookup_of_forall _ _ _ _ (fun b => rfl))
  · exact belebele_colValues_eng eng fra deu arb zho hf hd ha hz
      "mc_answer2" (fun b => b.mc_answer2)
      (mem_map_lookup_none _ _ _ (fun b => rfl))
      (mem_map_lookup_none _ _ _ (fun b => rfl))
      (mem_map_lookup_none _ _ _ (fun b => rfl))
      (mem_map_lookup_none _ _ _ (fun b => rfl))
      (map_lookup_of_forall _ _ _ _ (fun b => rfl))
  · exact belebele_colValues_eng eng fra deu arb zho hf hd ha hz
      "mc_answer3" (fun b => b.mc_answer3)
      (mem_map_lookup_none _ _ _ (fun b => rfl))
      (mem_map_lookup_none _ _ _ (fun b => rfl))
      (mem_map_lookup_none _ _ _ (fun b => rfl))
      (mem_map_lookup_none _ _ _ (fun b => rfl))
      (map_lookup_of_forall _ _ _ _ (fun b => rfl))
  · exact belebele_colValues_eng eng fra deu arb zho hf hd ha hz
      "mc_answer4" (fun b => b.mc_answer4)
      (mem_map_lookup_none _ _ _ (fun b => rfl))
      (mem_map_lookup_none _ _ _ (fun b => rfl))
      (mem_map_lookup_none _ _ _ (fun b => rfl))
      (mem_map_lookup_none _ _ _ (fun b => rfl))
      (map_lookup_of_forall _ _ _ _ (fun b => rfl))
  · exact belebele_colValues_eng eng fra deu arb zho hf hd ha hz
      "correct_answer_num" (fun b => b.correct_answer_num)
      (mem_map_lookup_none _ _ _ (fun b => rfl))
      (mem_map_lookup_none _ _ _ (fun b => rfl))
      (mem_map_lookup_none _ _ _ (fun b => rfl))
      (mem_map_lookup_none _ _ _ (fun b => rfl))
      (map_lookup_of_forall _ _ _ _ (fun b => rfl))
  · exact belebele_colValues_eng eng fra deu arb zho hf hd ha hz
      "eng_flores_passage" (fun b => b.flores_passage)
      (mem_map_lookup_none _ _ _ (fun b => rfl))
      (mem_map_lookup_none _ _ _ (fun b => rfl))
      (mem_map_lookup_none _ _ _ (fun b => rfl))
      (mem_map_lookup_none _ _ _ (fun b => rfl))
      (map_lookup_of_forall _ _ _ _ (fun b => rfl))
  · exact belebele_colValues_eng eng fra deu arb zho hf hd ha hz
      "eng_question" (fun b => b.question)
      (mem_map_lookup_none _ _ _ (fun b => rfl))
      (mem_map_lookup_none _ _ _ (fun b => rfl))
      (mem_map_lookup_none _ _ _ (fun b => rfl))
      (mem_map_lookup_none _ _ _ (fun b => rfl))
      (map_lookup_of_forall _ _ _ _ (fun b => rfl))
  · exact belebele_colValues_fra eng fra deu arb zho hf hd ha hz
      "fra_flores_passage" (fun b => b.flores_passage)
      (mem_map_lookup_none _ _ _ (fun b => rfl))
      (mem_map_lookup_none _ _ _ (fun b => rfl))
      (mem_map_lookup_none _ _ _ (fun b => rfl))
      (mem_map_lookup_none _ _ _ (fun b => rfl))
      (map_lookup_of_forall _ _ _ _ (fun b => rfl))
  · exact belebele_colValues_fra eng fra deu arb zho hf hd ha hz
      "fra_question" (fun b => b.question)
      (mem_map_lookup_none _ _ _ (fun b => rfl))
      (mem_map_lookup_none _ _ _ (fun b => rfl))
      (mem_map_lookup_none _ _ _ (fun b => rfl))
      (mem_map_lookup_none _ _ _ (fun b => rfl))
      (map_lookup_of_forall _ _ _ _ (fun b => rfl))
  · exact belebele_colValues_deu eng fra deu arb zho hf hd ha hz
      "deu_flores_passage" (fun b => b.flores_passage)
      (mem_map_lookup_none _ _ _ (fun b => rfl))
      (mem_map_lookup_none _ _ _ (fun b => rfl))
      (mem_map_lookup_none _ _ _ (fun b => rfl))
      (mem_map_lookup_none _ _ _ (fun b => rfl))
      (map_lookup_of_forall _ _ _ _ (fun b => rfl))
  · exact belebele_colValues_deu eng fra deu arb zho hf hd ha hz
      "deu_question" (fun b => b.question)
      (mem_map_lookup_none _ _ _ (fun b => rfl))
      (mem_map_lookup_none _ _ _ (fun b => rfl))
      (mem_map_lookup_none _ _ _ (fun b => rfl))
      (mem_map_lookup_none _ _ _ (fun b => rfl))
      (map_lookup_of_forall _ _ _ _ (fun b => rfl))
  · exact belebele_colValues_arb eng fra deu arb zho hf hd ha hz
      "arb_flores_passage" (fun b => b.flores_passage)
      (mem_map_lookup_none _ _ _ (fun b => rfl))
      (mem_map_lookup_none _ _ _ (fun b => rfl))
      (mem_map_lookup_none _ _ _ (fun b => rfl))
      (mem_map_lookup_none _ _ _ (fun b => rfl))
      (map_lookup_of_forall _ _ _ _ (fun b => rfl))
  · exact belebele_colValues_arb eng fra deu arb zho hf hd ha hz
      "arb_question" (fun b => b.question)
      (mem_map_lookup_none _ _ _ (fun b => rfl))
      (mem_map_lookup_none _ _ _ (fun b => rfl))
      (mem_map_lookup_none _ _ _ (fun b => rfl))
      (mem_map_lookup_none _ _ _ (fun b => rfl))
      (map_lookup_of_forall _ _ _ _ (fun b => rfl))
  · exact belebele_colValues_zho eng fra deu arb zho hf hd ha hz
      "zho_flores_passage" (fun b => b.flores_passage)
      (mem_map_lookup_none _ _ _ (fun b => rfl))
      (mem_map_lookup_none _ _ _ (fun b => rfl))
      (mem_map_lookup_none _ _ _ (fun b => rfl))
      (mem_map_lookup_none _ _ _ (fun b => rfl))
      (map_lookup_of_forall _ _ _ _ (fun b => rfl))
  · exact belebele_colValues_zho eng fra deu arb zho hf hd ha hz
      "zho_question" (fun b => b.question)
      (mem_map_lookup_none _ _ _ (fun b => rfl))
      (mem_map_lookup_none _ _ _ (fun b => rfl))
      (mem_map_lookup_none _ _ _ (fun b => rfl))
      (mem_map_lookup_none _ _ _ (fun b => rfl))
      (map_lookup_of_forall _ _ _ _ (fun b => rfl))

theorem C6_belebele_alignment_witness :
    ([wB6].length = [wB6].length) ∧
    colValues (belebele_combined [wB6] [wB6] [wB6] [wB6] [wB6]) "mc_answer1" =
      [some ['1']] :=
  ⟨rfl,
   ((C6_belebele_alignment [wB6] [wB6] [wB6] [wB6] [wB6]
      rfl rfl rfl rfl).2.1).trans (by decide)⟩
